import Mathlib

/-!
Verification of the provider-filtered content feed aggregation engine of the
movie-finder backend (`src/backend/main.py`, `src/backend/tmdb.py`,
`src/backend/streaming_availability.py`).

The Python source is shallowly embedded: dict-shaped catalog items become the
`Item` structure, the mutable loops of the section pool builders and of the
cross-section diversifier become fuel/structural recursions with explicit
state, upstream HTTP calls become oracle functions (`Nat → Except Unit
PageData`, provider maps, genre lists), and exceptions become `Except`.
Python falsiness of ids and page counts is modelled by `0`, and absent
dictionary fields by `Option`.
-/

set_option maxRecDepth 8000

/-- Media kind of a single catalog item: the `media_type` field, which is
either `"movie"` or `"tv"` when present and valid. -/
inductive Media
  | movie
  | tv
deriving DecidableEq, Repr

/-- Requested media kind of a feed: query parameter `media_type` taking
`"movie"`, `"tv"` or `"mix"` (`VALID_MEDIA_TYPES`). -/
inductive MediaKind
  | movie
  | tv
  | mix
deriving DecidableEq, Repr

/-- A catalog item as consumed by the feed engine: only the fields the engine
reads. `id = 0` models a missing or falsy id (`item.get("id")` falsy in
Python); `mediaType = none` models a `media_type` field that is absent or not
one of `"movie"`/`"tv"`. -/
structure Item where
  id : Nat
  mediaType : Option Media := none
deriving DecidableEq, Repr

/-- The `(media kind, id)` dedup key of `_item_row_key`. -/
abbrev RowKey := Media × Nat

/-- Embeds `_item_row_key(item, fallback_media_type)`: `None` for a falsy id,
otherwise the pair of the item's media type (defaulted from the request media
kind: `"tv" if fallback_media_type == "tv" else "movie"`) and its id. -/
def itemRowKey (fb : MediaKind) (item : Item) : Option RowKey :=
  if item.id = 0 then none
  else
    some (match item.mediaType with
      | some m => m
      | none => if fb = MediaKind.tv then Media.tv else Media.movie,
      item.id)

/-- Keys of a list of items, in order, dropping keyless items. -/
def itemKeys (fb : MediaKind) (l : List Item) : List RowKey :=
  l.filterMap (itemRowKey fb)

/-- One shelf payload as passed to `_diversify_sections`: the dict
`{"id": ..., "results": [...]}` (other fields are carried through unchanged
by the diversifier and are irrelevant here). -/
structure SectionPayload where
  id : String
  results : List Item
deriving DecidableEq, Repr

/-- First pass of `_diversify_sections` over one shelf's `original_results`:
walks the list, skips keyless items, skips keys already in `section_seen`,
then skips (but marks section-seen) keys already in `global_seen`, otherwise
appends the item and marks it globally seen, breaking once
`per_section_limit` is reached.  Returns the accumulated `unique_results`
together with the updated `global_seen`. -/
def diversifyFirstPass (fb : MediaKind) (limit : Nat) :
    List Item → List RowKey → List RowKey → List Item → List Item × List RowKey
  | [], _, gs, acc => (acc, gs)
  | item :: rest, ss, gs, acc =>
    match itemRowKey fb item with
    | none => diversifyFirstPass fb limit rest ss gs acc
    | some key =>
      if key ∈ ss then diversifyFirstPass fb limit rest ss gs acc
      else if key ∈ gs then diversifyFirstPass fb limit rest (key :: ss) gs acc
      else if limit ≤ acc.length + 1 then (acc ++ [item], key :: gs)
      else diversifyFirstPass fb limit rest (key :: ss) (key :: gs) (acc ++ [item])

/-- Backfill step of `_diversify_sections`: walks the shelf's original
pre-dedup list again and appends any item whose key is not in the local
`used` set (the keys already in this shelf's `unique_results`), breaking once
the limit is reached.  Note that it consults only the shelf-local `used` set,
not `global_seen`. -/
def diversifyBackfill (fb : MediaKind) (limit : Nat) :
    List Item → List RowKey → List Item → List Item
  | [], _, acc => acc
  | item :: rest, used, acc =>
    match itemRowKey fb item with
    | none => diversifyBackfill fb limit rest used acc
    | some key =>
      if key ∈ used then diversifyBackfill fb limit rest used acc
      else if limit ≤ acc.length + 1 then acc ++ [item]
      else diversifyBackfill fb limit rest (key :: used) (acc ++ [item])

/-- Processing of one shelf inside `_diversify_sections`: first pass, then
backfill when the unique set is below the limit. Returns the shelf's final
item list (before truncation) and the updated `global_seen`. -/
def diversifyProcessSection (fb : MediaKind) (limit : Nat) (gs : List RowKey)
    (s : SectionPayload) : List Item × List RowKey :=
  let r := diversifyFirstPass fb limit s.results [] gs []
  let unique :=
    if r.1.length < limit then
      diversifyBackfill fb limit s.results (itemKeys fb r.1) r.1
    else r.1
  (unique, r.2)

/-- Main loop of `_diversify_sections` over the shelf list, threading
`global_seen`; shelves whose final list is empty are dropped, the rest are
truncated to the per-shelf limit. -/
def diversifyGo (fb : MediaKind) (limit : Nat) (gs : List RowKey) :
    List SectionPayload → List SectionPayload
  | [] => []
  | s :: rest =>
    let pr := diversifyProcessSection fb limit gs s
    if pr.1.isEmpty then diversifyGo fb limit pr.2 rest
    else { s with results := pr.1.take limit } :: diversifyGo fb limit pr.2 rest

/-- Embeds `_diversify_sections(sections, media_type, per_section_limit)`. -/
def diversifySections (secs : List SectionPayload) (mk : MediaKind)
    (perSectionLimit : Nat := 24) : List SectionPayload :=
  diversifyGo mk perSectionLimit [] secs

/-- Analysis predicate (not part of the source): `true` iff, in the run of
`_diversify_sections` on this input, no shelf's backfill step would be
entered — every shelf's first-pass unique set already reaches the per-shelf
limit.  It threads `global_seen` exactly as `diversifyGo` does. -/
def diversifyBackfillFree (fb : MediaKind) (limit : Nat) (gs : List RowKey) :
    List SectionPayload → Bool
  | [] => true
  | s :: rest =>
    let r := diversifyFirstPass fb limit s.results [] gs []
    decide (limit ≤ r.1.length) && diversifyBackfillFree fb limit r.2 rest

/-- One page of raw upstream results as consumed by the pool builders:
`data.get("results", [])` and `data.get("total_pages")` (0 models a missing
or falsy page count). -/
structure PageData where
  results : List Item := []
  totalPages : Nat := 0
deriving DecidableEq, Repr

/-- Shelf fetch strategies (`section["kind"]`). -/
inductive SecKind
  | trending
  | topRated
  | genre
  | discover
  | recentlyAdded
deriving DecidableEq, Repr

/-- Query parameter dictionaries (TMDB discover params); all values are
modelled as strings. -/
abbrev Params := List (String × String)

/-- First-match association lookup (models Python dict lookup; updated
entries are prepended or merged so that the first match is the live one). -/
def lookupKV {α β : Type} [DecidableEq α] : List (α × β) → α → Option β
  | [], _ => none
  | kv :: rest, key => if key = kv.1 then some kv.2 else lookupKV rest key

/-- Python `dict(base); dict.update(upd)`: entries of `upd` win over entries
of `base`. -/
def dictUpdate (base upd : Params) : Params :=
  base.filter (fun kv => (lookupKV upd kv.1).isNone) ++ upd

/-- A shelf definition (`section` dict of `_home_section_config` /
`_guest_section_config`): only the fields the engine reads. -/
structure Sec where
  id : String
  title : String := ""
  kind : SecKind
  params : Params := []
  genreId : Option Nat := none
  catalogs : List String := []
  countries : List String := []
  timeWindow : String := "week"
deriving DecidableEq, Repr

/-- Insertion of one element into a Bool-ordered list (helper for `sortBy`,
the embedding of Python `sorted`). -/
def insertSortedBy {α : Type} (le : α → α → Bool) (a : α) : List α → List α
  | [] => [a]
  | b :: rest => if le a b then a :: b :: rest else b :: insertSortedBy le a rest

/-- Insertion sort, embedding Python `sorted(...)`. -/
def sortBy {α : Type} (le : α → α → Bool) : List α → List α
  | [] => []
  | a :: rest => insertSortedBy le a (sortBy le rest)

/-- The `"|".join(str(pid) for pid in sorted(provider_ids))` expression of
`_discover_provider_filter_params` (the provider id list models the Python
set, so it is taken to hold distinct ids). -/
def providerExpr (pids : List Nat) : String :=
  String.intercalate "|" ((sortBy (fun a b => decide (a ≤ b)) pids).map toString)

/-- The monetization scope string of `_discover_provider_filter_params`:
`"flatrate|free|ads"` plus `"|rent|buy"` when paid inclusion is requested. -/
def monetizationExpr (includePaid : Bool) : String :=
  if includePaid then "flatrate|free|ads|rent|buy" else "flatrate|free|ads"

/-- Embeds `_discover_provider_filter_params(provider_ids,
allowed_countries, include_paid)`: produces provider-aware discover
parameters only when the provider set is non-empty and the allowed-country
set holds exactly one country (`allowed = none` models the `None` VPN/any
country mode). -/
def discoverProviderFilterParams (pids : List Nat) (allowed : Option (List String))
    (includePaid : Bool) : Option Params :=
  match allowed with
  | none => none
  | some cs =>
    if pids.isEmpty ∨ cs.length ≠ 1 then none
    else some
      [("watch_region", cs.headD ""),
       ("with_watch_providers", providerExpr pids),
       ("with_watch_monetization_types", monetizationExpr includePaid)]

/-- Embeds `_trending_discover_fallback_params(media_type, base_params)`;
`recentFloor` is the precomputed `date.today() - 365 days` ISO string (an
input of the model, as wall-clock time is external). -/
def trendingDiscoverFallbackParams (mk : MediaKind) (recentFloor : String)
    (base : Params) : Params :=
  let p1 := dictUpdate base
    [(if mk = MediaKind.tv then "first_air_date.gte" else "primary_release_date.gte",
      recentFloor)]
  dictUpdate p1 [("vote_count.gte", "50"), ("sort_by", "popularity.desc")]

/-- The `use_trending_discover_fallback` flag of `build_section_pool`. -/
def useTrendingDiscoverFallback (dpp : Option Params) (k : SecKind) : Bool :=
  dpp.isSome && decide (k = SecKind.trending)

/-- The `use_fast_discover_filter` flag of `build_section_pool`. -/
def useFastDiscoverFilter (dpp : Option Params) (k : SecKind) : Bool :=
  dpp.isSome &&
    (decide (k = SecKind.topRated) || decide (k = SecKind.genre) ||
     decide (k = SecKind.discover) || useTrendingDiscoverFallback dpp k)

/-- The `section_for_fetch` rewrite of `build_section_pool`: on the trending
fallback the shelf becomes a discover shelf over the fallback params; on the
fast path the provider-aware params are merged into the shelf's params;
otherwise the shelf is fetched unchanged. -/
def sectionForFetch (s : Sec) (mk : MediaKind) (recentFloor : String)
    (dpp : Option Params) : Sec :=
  if useTrendingDiscoverFallback dpp s.kind then
    { id := s.id, title := s.title, kind := SecKind.discover,
      params := trendingDiscoverFallbackParams mk recentFloor (dpp.getD []) }
  else if useFastDiscoverFilter dpp s.kind then
    { s with params := dictUpdate s.params (dpp.getD []) }
  else s

/-- The discover-style query parameters `_fetch_section_page` sends upstream
for a shelf (top-rated adds a rating sort and vote floor, genre adds its
genre id, discover passes the params through; trending and recently-added
use other endpoints). -/
def fetchParams (s : Sec) : Option Params :=
  match s.kind with
  | SecKind.topRated =>
    some (dictUpdate s.params [("sort_by", "vote_average.desc"), ("vote_count.gte", "300")])
  | SecKind.genre =>
    some (dictUpdate s.params
      [("with_genres", match s.genreId with | some g => toString g | none => "")])
  | SecKind.discover => some s.params
  | _ => none

/-- `row_limit` of the `/api/home` handler. -/
def rowLimit : Nat := 24

/-- `pool_target` of the `/api/home` handler. -/
def homePoolTarget : Nat := 48

/-- `max_scan_pages` of the `/api/home` handler (primary scan budget). -/
def homeMaxScanPages : Nat := 12

/-- `extra_max_scan_pages` of the `/api/home` handler (secondary scan
budget). -/
def homeExtraMaxScanPages : Nat := 60

/-- `section_pool_target` of `build_section_pool`. -/
def sectionPoolTarget (k : SecKind) (fast : Bool) : Nat :=
  if k = SecKind.trending then rowLimit
  else if k = SecKind.recentlyAdded then max rowLimit 32
  else if fast then max rowLimit 36
  else homePoolTarget

/-- `section_max_scan_pages` of `build_section_pool` (per-shelf primary scan
budget). -/
def sectionMaxScanPages (k : SecKind) (fallback fast : Bool) : Nat :=
  if k = SecKind.trending then (if fallback then 4 else 10)
  else if fast then 4
  else homeMaxScanPages

/-- `section_extra_max_scan_pages` of `build_section_pool` (per-shelf
secondary scan budget). -/
def sectionExtraMaxScanPages (k : SecKind) (fallback fast : Bool) : Nat :=
  if k = SecKind.trending then (if fallback then 12 else 20)
  else if fast then 12
  else homeExtraMaxScanPages

/-- The `add_to_pool(items, limit)` closure of `build_section_pool`: appends
items whose `(media kind, id)` key is fresh w.r.t. `section_seen`, breaking
once the pool reaches `limit`. -/
def addToPool (fb : MediaKind) (limit : Nat) :
    List Item → List Item → List RowKey → List Item × List RowKey
  | [], pool, seenKeys => (pool, seenKeys)
  | item :: rest, pool, seenKeys =>
    match itemRowKey fb item with
    | none => addToPool fb limit rest pool seenKeys
    | some key =>
      if key ∈ seenKeys then addToPool fb limit rest pool seenKeys
      else if limit ≤ pool.length + 1 then (pool ++ [item], key :: seenKeys)
      else addToPool fb limit rest (pool ++ [item]) (key :: seenKeys)

/-- The by-id page dedup at the head of `_filter_results` (skips falsy ids
and repeats). -/
def dedupById (seenIds : List Nat) : List Item → List Item
  | [] => []
  | m :: rest =>
    if m.id = 0 ∨ m.id ∈ seenIds then dedupById seenIds rest
    else m :: dedupById (m.id :: seenIds) rest

/-- Embeds `_filter_results`: page-level by-id dedup followed by the
per-item availability check.  `avail` is the oracle for the Availability
Resolver verdict `_item_has_provider` on one item under the ambient filter
context (its own definition is verified separately for C5/C6). -/
def filterResults (avail : Item → Bool) (results : List Item) : List Item :=
  (dedupById [] results).filter avail

/-- Mutable state of the two scan loops of `build_section_pool`:
`pool`/`seen` accumulate results, `page` is `p`, plus the shared `scanned`
counter; `fetchCount` logs upstream page fetches and `checked` logs how many
items were submitted to the per-item Availability Resolver
(`_item_has_provider` invocations via `_filter_results`). -/
structure ScanState where
  pool : List Item := []
  seen : List RowKey := []
  totalPages : Nat := 0
  page : Nat := 1
  scanned : Nat := 0
  fetchCount : Nat := 0
  checked : Nat := 0
deriving DecidableEq, Repr

/-- One scan loop of `build_section_pool` (both the primary loop
`while len(pool) < section_pool_target and scanned < section_max_scan_pages`
and the secondary loop over `row_limit`/`section_extra_max_scan_pages` have
this exact shape; they differ only in `target` and `budget` and share
`scanned`). `fuel` bounds the recursion and is called with `budget`, which
suffices since every continuing iteration increments `scanned`. -/
def scanLoop (fetch : Nat → Except Unit PageData) (fb : MediaKind) (fast : Bool)
    (avail : Item → Bool) (target budget : Nat) :
    Nat → ScanState → Except Unit ScanState
  | 0, st => Except.ok st
  | fuel + 1, st =>
    if st.pool.length < target ∧ st.scanned < budget then
      if st.totalPages ≠ 0 ∧ st.totalPages < st.page then Except.ok st
      else
        match fetch st.page with
        | Except.error e => Except.error e
        | Except.ok pageData =>
          let tp := if pageData.totalPages ≠ 0 then pageData.totalPages else st.totalPages
          let fc := st.fetchCount + 1
          if pageData.results.isEmpty then
            Except.ok { st with totalPages := tp, fetchCount := fc }
          else
            let filtered := if fast then pageData.results
              else filterResults avail pageData.results
            let checked := if fast then st.checked
              else st.checked + (dedupById [] pageData.results).length
            let pr := addToPool fb target filtered st.pool st.seen
            let st' : ScanState :=
              { pool := pr.1, seen := pr.2, totalPages := tp, page := st.page,
                scanned := st.scanned + 1, fetchCount := fc, checked := checked }
            if tp ≠ 0 ∧ tp ≤ st.page then Except.ok st'
            else scanLoop fetch fb fast avail target budget fuel
              { st' with page := st.page + 1 }
    else Except.ok st

/-- One response of `streaming_availability.get_recently_added`. -/
structure RecentData where
  results : List Item := []
  nextCursor : Option String := none
deriving DecidableEq, Repr

/-- Result of one shelf build (`section_payload` of `build_section_pool`),
extended with the effect log (`fetchCount`, `checked`). -/
structure BuildOut where
  pool : List Item := []
  nextPage : Option Nat := none
  nextCursor : Option String := none
  totalPages : Nat := 0
  fetchCount : Nat := 0
  checked : Nat := 0
deriving DecidableEq, Repr

/-- Embeds `build_section_pool(section)` of the `/api/home` handler.
`adapter` models `_fetch_section_page` (a raising upstream call is an
`Except.error`), `recentFetch` models the single
`streaming_availability.get_recently_added` call of the recently-added
branch, and `avail` models the Availability Resolver verdict per item. -/
def buildSectionPool (adapter : Sec → Nat → Except Unit PageData)
    (recentFetch : Except Unit RecentData) (avail : Item → Bool)
    (pids : List Nat) (allowed : Option (List String)) (includePaid : Bool)
    (mk : MediaKind) (recentFloor : String) (s : Sec) : Except Unit BuildOut :=
  let dpp := discoverProviderFilterParams pids allowed includePaid
  let fallback := useTrendingDiscoverFallback dpp s.kind
  let fast := useFastDiscoverFilter dpp s.kind
  let secF := sectionForFetch s mk recentFloor dpp
  let target := sectionPoolTarget s.kind fast
  let maxScan := sectionMaxScanPages s.kind fallback fast
  let extraScan := sectionExtraMaxScanPages s.kind fallback fast
  if s.kind = SecKind.recentlyAdded then
    match recentFetch with
    | Except.error e => Except.error e
    | Except.ok rd =>
      let filtered := if s.catalogs.isEmpty then filterResults avail rd.results
        else rd.results
      let checked := if s.catalogs.isEmpty then (dedupById [] rd.results).length else 0
      let pr := addToPool mk target filtered [] []
      Except.ok { pool := pr.1, nextCursor := rd.nextCursor, checked := checked }
  else
    match scanLoop (adapter secF) mk fast avail target maxScan maxScan {} with
    | Except.error e => Except.error e
    | Except.ok st1 =>
      match scanLoop (adapter secF) mk fast avail rowLimit extraScan extraScan st1 with
      | Except.error e => Except.error e
      | Except.ok st2 =>
        Except.ok
          { pool := st2.pool,
            nextPage := if st2.totalPages ≠ 0 ∧ st2.page ≤ st2.totalPages
              then some st2.page else none,
            totalPages := st2.totalPages,
            fetchCount := st2.fetchCount,
            checked := st2.checked }

/-- `pool_target` of the guest home handler `_guest_home`. -/
def guestPoolTarget : Nat := 40

/-- `max_scan_pages` of `_guest_home`. -/
def guestMaxScanPages : Nat := 10

/-- Embeds `build_guest_section_pool(section)` of `_guest_home`: the guest
loop has the exact shape of `scanLoop` with no per-item filtering (`fast`
behaviourally true: raw pages are appended after key dedup only). -/
def buildGuestSectionPool (fetch : Nat → Except Unit PageData) (mk : MediaKind) :
    Except Unit BuildOut :=
  match scanLoop fetch mk true (fun _ => true) guestPoolTarget guestMaxScanPages
      guestMaxScanPages {} with
  | Except.error e => Except.error e
  | Except.ok st =>
    Except.ok
      { pool := st.pool,
        nextPage := if st.totalPages ≠ 0 ∧ st.page ≤ st.totalPages
          then some st.page else none,
        totalPages := st.totalPages,
        fetchCount := st.fetchCount }

/-- Mutable state of the accumulation loop of the `/api/section` endpoint
(personalized paged branch): results are deduplicated by bare id
(`seen_ids`), `lastPage` is `last_page`. -/
structure SectionScanState where
  results : List Item := []
  seenIds : List Nat := []
  totalPages : Nat := 0
  page : Nat := 1
  lastPage : Nat := 0
  scanned : Nat := 0
deriving DecidableEq, Repr

/-- The inner `for m in filtered` accumulation of the `/api/section` loop:
appends items with a fresh non-falsy bare id, breaking at `target_count`. -/
def addByIdLoop (limit : Nat) : List Item → List Item → List Nat → List Item × List Nat
  | [], res, seen => (res, seen)
  | m :: rest, res, seen =>
    if m.id = 0 ∨ m.id ∈ seen then addByIdLoop limit rest res seen
    else if limit ≤ res.length + 1 then (res ++ [m], m.id :: seen)
    else addByIdLoop limit rest (res ++ [m]) (m.id :: seen)

/-- Embeds the page accumulation loop of the `/api/section` endpoint
(personalized, non-recently branch): pages from `startPage`, stop on known
total page count, on the scan budget, on an empty page (checked after
accumulating), or once `target_count` results are collected. -/
def sectionScanLoop (fetch : Nat → Except Unit PageData) (fast : Bool)
    (avail : Item → Bool) (targetCount maxScan : Nat) :
    Nat → SectionScanState → Except Unit SectionScanState
  | 0, st => Except.ok st
  | fuel + 1, st =>
    if st.results.length < targetCount then
      if st.totalPages ≠ 0 ∧ st.totalPages < st.page then Except.ok st
      else if maxScan ≤ st.scanned then Except.ok st
      else
        match fetch st.page with
        | Except.error e => Except.error e
        | Except.ok d =>
          let tp := if st.totalPages = 0 then d.totalPages else st.totalPages
          let filtered := if fast then d.results else filterResults avail d.results
          let pr := addByIdLoop targetCount filtered st.results st.seenIds
          let st' : SectionScanState :=
            { results := pr.1, seenIds := pr.2, totalPages := tp, page := st.page,
              lastPage := st.page, scanned := st.scanned + 1 }
          if d.results.isEmpty then Except.ok st'
          else if targetCount ≤ pr.1.length then Except.ok st'
          else sectionScanLoop fetch fast avail targetCount maxScan fuel
            { st' with page := st.page + 1 }
    else Except.ok st

/-- Bare ids of a result list. -/
def resultIds (l : List Item) : List Nat := l.map (fun m => m.id)

/-- Concrete adapter used by the C4 witness: every page repeats one item. -/
def repeatPageAdapter : Sec → Nat → Except Unit PageData :=
  fun _ _ => Except.ok { results := [⟨7, some Media.movie⟩, ⟨7, some Media.movie⟩] }

/-- Concrete fetcher used by the C4 witness. -/
def repeatPageFetch : Nat → Except Unit PageData :=
  fun _ => Except.ok { results := [⟨7, some Media.movie⟩, ⟨7, some Media.movie⟩] }

/-- One provider entry of a region listing; `provider_id = none` models an
entry whose `p.get("provider_id")` is absent. -/
structure ProviderEntry where
  provider_id : Option Nat := none
deriving DecidableEq, Repr

/-- A region's listings: monetization key to provider entries
(`region.get(key, [])`). -/
abbrev RegionListing := List (String × List ProviderEntry)

/-- A fetched per-item provider map: region code to listings, as iterated by
`providers.items()` in `_item_has_provider`. -/
abbrev ProviderMap := List (String × RegionListing)

/-- The monetization keys of `_item_has_provider`: flatrate/free/ads,
extended with rent/buy exactly when paid inclusion is requested. -/
def monetizationKeys (includePaid : Bool) : List String :=
  if includePaid then ["flatrate", "free", "ads", "rent", "buy"]
  else ["flatrate", "free", "ads"]

/-- Character-list uppercase helper (kernel-reducible embedding of Python
`str.upper()` for the ASCII codes used by country/region strings). -/
def upperAux : List Char → List Char
  | [] => []
  | c :: rest => Char.toUpper c :: upperAux rest

/-- Python `s.upper()`. -/
def strUpper (s : String) : String := ⟨upperAux s.data⟩

/-- The region skip test of `_item_has_provider`:
`allowed_countries and str(region_code).upper() not in allowed_countries`
(a falsy — absent or empty — allowed set skips nothing: VPN/any-country
mode). -/
def regionSkipped (allowed : Option (List String)) (regionCode : String) : Bool :=
  match allowed with
  | none => false
  | some cs => (!cs.isEmpty) && !(cs.contains (strUpper regionCode))

/-- The evaluation core of `_item_has_provider`: some non-skipped region
lists one of the selected provider ids under a monetization key in scope. -/
def itemHasProviderEval (providers : ProviderMap) (providerIds : List Nat)
    (includePaid : Bool) (allowed : Option (List String)) : Bool :=
  providers.any fun rcRegion =>
    (!(regionSkipped allowed rcRegion.1)) &&
      (monetizationKeys includePaid).any fun k =>
        ((lookupKV rcRegion.2 k).getD []).any fun p =>
          match p.provider_id with
          | some pid => providerIds.contains pid
          | none => false

/-- The per-request flag cache shared through `_filter_results`, keyed by
`(media_type, item_id, country_scope_key)`. -/
abbrev FlagCache := List ((String × Nat × String) × Bool)

/-- The country-scope-plus-monetization signature built by
`_filter_results`: sorted comma-joined countries (or `"*"`), then `:all` or
`:stream`. -/
def countryScopeKey (allowed : Option (List String)) (includePaid : Bool) : String :=
  (match allowed with
   | some cs =>
     if cs.isEmpty then "*"
     else String.intercalate "," (sortBy (fun a b => decide (a ≤ b)) cs)
   | none => "*") ++ ":" ++ (if includePaid then "all" else "stream")

/-- Embeds `_item_has_provider`: consults the flag cache first; on a miss
fetches the provider map (`fetchMap`; `Except.error` models a raising
upstream call), evaluates it, and caches the boolean under the scope key; an
upstream failure caches and returns `false` (fail-closed). -/
def itemHasProviderCached (fetchMap : Except Unit ProviderMap)
    (providerIds : List Nat) (includePaid : Bool) (allowed : Option (List String))
    (flagCache : FlagCache) (mediaType : String) (itemId : Nat)
    (scopeKey : String) : Bool × FlagCache :=
  let key := (mediaType, itemId, scopeKey)
  match lookupKV flagCache key with
  | some b => (b, flagCache)
  | none =>
    match fetchMap with
    | Except.error _ => (false, (key, false) :: flagCache)
    | Except.ok providers =>
      let b := itemHasProviderEval providers providerIds includePaid allowed
      (b, (key, b) :: flagCache)

/-- `WATCH_PROVIDER_TTL` (6 hours, seconds). -/
def WATCH_PROVIDER_TTL : Nat := 6 * 60 * 60

/-- `HOME_CACHE_TTL` (10 minutes). -/
def HOME_CACHE_TTL : Nat := 10 * 60

/-- `SECTION_CACHE_TTL` (10 minutes). -/
def SECTION_CACHE_TTL : Nat := 10 * 60

/-- `SECTION_CONFIG_TTL` (10 minutes). -/
def SECTION_CONFIG_TTL : Nat := 10 * 60

/-- `CHANGES_TTL` of `streaming_availability` (10 minutes). -/
def CHANGES_TTL : Nat := 10 * 60

/-- The shared check-then-serve cache read pattern of every cache domain:
`cached = CACHE.get(key); if cached and (now - cached[0]) < TTL: return
cached[1]` — an entry is served as fresh only while its age is strictly
below the domain TTL. -/
def cacheLookupFresh {κ ν : Type} [DecidableEq κ] (store : List (κ × Nat × ν))
    (key : κ) (ttl now : Nat) : Option ν :=
  match lookupKV store key with
  | some tv => if now - tv.1 < ttl then some tv.2 else none
  | none => none

/-- The `WATCH_PROVIDER_CACHE` read of `_get_watch_providers_cached`. -/
def watchProviderCacheGet {ν : Type} (store : List ((String × Nat) × Nat × ν))
    (key : String × Nat) (now : Nat) : Option ν :=
  cacheLookupFresh store key WATCH_PROVIDER_TTL now

/-- The `HOME_CACHE` read of the `/api/home` handler and `_guest_home`. -/
def homeCacheGet {ν : Type} (store : List (String × Nat × ν)) (key : String)
    (now : Nat) : Option ν :=
  cacheLookupFresh store key HOME_CACHE_TTL now

/-- The `SECTION_CACHE` read of the `/api/section` handler and
`_guest_section`. -/
def sectionCacheGet {ν : Type} (store : List (String × Nat × ν)) (key : String)
    (now : Nat) : Option ν :=
  cacheLookupFresh store key SECTION_CACHE_TTL now

/-- The `SECTION_CONFIG_CACHE` read of `_home_section_config` and
`_guest_section_config`. -/
def sectionConfigCacheGet {ν : Type} (store : List (String × Nat × ν)) (key : String)
    (now : Nat) : Option ν :=
  cacheLookupFresh store key SECTION_CONFIG_TTL now

/-- The `_changes_cache` read of `get_recently_added`. -/
def changesCacheGet {ν : Type} (store : List (String × Nat × ν)) (key : String)
    (now : Nat) : Option ν :=
  cacheLookupFresh store key CHANGES_TTL now

/-- Embeds `_get_watch_providers_cached(item_id, media_type)`: serves a
fresh cache entry, else calls the Catalog Adapter's provider lookup
(`get_tv_watch_providers` for tv, `get_watch_providers` otherwise), stores
the result with the current time, and returns it.  The third component
counts upstream provider-lookup calls made by this invocation (0 or 1). -/
def getWatchProvidersCached (upstreamMovie upstreamTv : ProviderMap)
    (itemId : Nat) (mediaType : String) (now : Nat)
    (cache : List ((String × Nat) × Nat × ProviderMap)) :
    ProviderMap × List ((String × Nat) × Nat × ProviderMap) × Nat :=
  let cacheKey := (mediaType, itemId)
  match watchProviderCacheGet cache cacheKey now with
  | some v => (v, cache, 0)
  | none =>
    let providers := if mediaType = "tv" then upstreamTv else upstreamMovie
    (providers, (cacheKey, now, providers) :: cache, 1)

/-- `page = max(1, page)` of the `/api/home` handler, applied on every
serving path (guest and personalized) before the shelf window is sliced. -/
def clampPage (page : Int) : Int := max 1 page

/-- `page_size = max(3, min(10, page_size))` of `/api/home`, applied before
the shelf window is sliced. -/
def clampPageSize (pageSize : Int) : Int := max 3 (min 10 pageSize)

/-- `pages = max(1, min(5, pages))`: the upstream fetch-round clamp of the
`/api/section` handler, of `_guest_section`, and of
`streaming_availability.get_recently_added`. -/
def clampFetchRounds (pages : Int) : Int := max 1 (min 5 pages)

/-- The shelf-window slice of `/api/home`:
`sections_config[(page-1)*page_size : (page-1)*page_size + page_size]`,
computed from the clamped page and page size. -/
def homeSliceWindow (cfg : List Sec) (page pageSize : Int) : List Sec :=
  (cfg.drop ((clampPage page - 1) * clampPageSize pageSize).toNat).take
    (clampPageSize pageSize).toNat

/-- `target_count = pages * 20` of `/api/section`, from the clamped rounds. -/
def sectionTargetCount (pages : Int) : Int := clampFetchRounds pages * 20

/-- `max_scan_pages = pages * 5` of `/api/section`, from the clamped
rounds. -/
def sectionMaxScanForPages (pages : Int) : Int := clampFetchRounds pages * 5

/-- Character-list lowercase helper (embedding of Python `str.lower()`). -/
def lowerAux : List Char → List Char
  | [] => []
  | c :: rest => Char.toLower c :: lowerAux rest

/-- Python `s.lower()`. -/
def strLower (s : String) : String := ⟨lowerAux s.data⟩

/-- Python `s.strip()` (ASCII whitespace at both ends). -/
def strTrim (s : String) : String :=
  ⟨((s.data.dropWhile Char.isWhitespace).reverse.dropWhile Char.isWhitespace).reverse⟩

/-- A genre of the Catalog Adapter's genre list (`{"id": ..., "name": ...}`). -/
structure Genre where
  id : Nat
  name : String
deriving DecidableEq, Repr

/-- `GENRE_PRIORITY_ORDER` of `main.py`. -/
def GENRE_PRIORITY_ORDER : List String :=
  ["Action", "Adventure", "Science Fiction", "Fantasy", "Thriller", "Crime",
   "Mystery", "Drama", "Comedy", "Romance", "Animation", "Family",
   "Documentary", "History", "War", "Horror", "Western", "Music", "TV Movie",
   "Action & Adventure", "Sci-Fi & Fantasy", "War & Politics", "Kids", "News",
   "Reality", "Talk", "Soap"]

/-- Embeds `_genre_priority(name)`: index in the fixed priority list under a
case-insensitive match, or list length + 100. -/
def genrePriority (name : String) : Nat :=
  (GENRE_PRIORITY_ORDER.findIdx?
    (fun g => strLower (strTrim name) = strLower g)).getD
    (GENRE_PRIORITY_ORDER.length + 100)

/-- Embeds `_ordered_genres(genres)`: sorted by (priority, lowercase
name). -/
def orderedGenres (genres : List Genre) : List Genre :=
  sortBy
    (fun a b =>
      decide (genrePriority a.name < genrePriority b.name) ||
      (decide (genrePriority a.name = genrePriority b.name) &&
       decide (strLower a.name ≤ strLower b.name)))
    genres

/-- The wall-clock-derived values used by the shelf builders — inputs of the
model since time is external: `date.today().year` and the precomputed ISO
date strings of `_build_exploration_discover_sections` and
`_trending_discover_fallback_params`. -/
structure DatesCtx where
  currentYear : Nat := 2026
  last45 : String := ""
  last365 : String := ""
  last5y : String := ""
deriving DecidableEq, Repr

/-- `date_gte` key for a media kind. -/
def dateGteKey (mk : MediaKind) : String :=
  if mk = MediaKind.tv then "first_air_date.gte" else "primary_release_date.gte"

/-- `date_lte` key for a media kind. -/
def dateLteKey (mk : MediaKind) : String :=
  if mk = MediaKind.tv then "first_air_date.lte" else "primary_release_date.lte"

/-- `date_year` key for a media kind. -/
def dateYearKey (mk : MediaKind) : String :=
  if mk = MediaKind.tv then "first_air_date_year" else "primary_release_year"

/-- Shelf ids of a shelf list (the `seen_ids` set is always exactly this
set, since every append updates both). -/
def secIds (l : List Sec) : List String := l.map Sec.id

/-- The `add_discover(section_id, title, params)` closure: id-deduplicated
append of a discover shelf whose params are the base params updated with the
shelf's own. -/
def addDiscover (base : Params) (secs : List Sec) (sid title : String)
    (params : Params) : List Sec :=
  if sid ∈ secIds secs then secs
  else secs ++ [{ id := sid, title := title, kind := SecKind.discover,
                  params := dictUpdate base params }]

/-- The id-collection loop of `_genre_expression` (skips falsy or repeated
genre ids). -/
def genreExprIds (gid : String → Option Nat) (seenG : List Nat) :
    List String → List String
  | [] => []
  | name :: rest =>
    match gid name with
    | none => genreExprIds gid seenG rest
    | some g =>
      if g = 0 ∨ g ∈ seenG then genreExprIds gid seenG rest
      else toString g :: genreExprIds gid (g :: seenG) rest

/-- Embeds `_genre_expression(names, gid_lookup, op)`. -/
def genreExpression (names : List String) (gid : String → Option Nat)
    (op : String) : Option String :=
  let ids := genreExprIds gid [] names
  if ids.isEmpty then none
  else some (String.intercalate (if op = "or" then "|" else ",") ids)

/-- The `add_genre_discover(section_id, title, names, op, extra)` closure:
skipped entirely when no genre resolves. -/
def addGenreDiscover (base : Params) (gid : String → Option Nat)
    (secs : List Sec) (sid title : String) (names : List String) (op : String)
    (extra : Params) : List Sec :=
  match genreExpression names gid op with
  | none => secs
  | some expr => addDiscover base secs sid title (dictUpdate [("with_genres", expr)] extra)

/-- The decade list of the decade shelves. -/
def decadesList : List Nat := [2020, 2010, 2000, 1990, 1980, 1970, 1960]

/-- `LANGUAGE_SPOTLIGHTS` of `main.py`. -/
def LANGUAGE_SPOTLIGHTS : List (String × String) :=
  [("Korean Picks", "ko"), ("Japanese Stories", "ja"), ("Spanish Favorites", "es"),
   ("French Cinema", "fr"), ("Hindi Hits", "hi"), ("German Gems", "de"),
   ("Italian Classics", "it"), ("Portuguese Picks", "pt"), ("Turkish Dramas", "tr"),
   ("Chinese Stories", "zh"), ("Thai Picks", "th"), ("Swedish Hits", "sv"),
   ("Danish Gems", "da"), ("Norwegian Favorites", "no"), ("Polish Picks", "pl"),
   ("Arabic Stories", "ar")]

/-- Embeds `_build_exploration_discover_sections(media_type, gid_lookup,
base_params)`: the curated discovery shelves, with the TV-heavy block for
tv/mix, the decade and language shelves, and the runtime shelves for
movie-only browsing. -/
def explorationSections (mk : MediaKind) (gid : String → Option Nat)
    (base : Params) (d : DatesCtx) : List Sec :=
  let s : List Sec := []
  let s := addDiscover base s "new_this_year" (toString d.currentYear ++ " Releases")
    [(dateYearKey mk, toString d.currentYear)]
  let s := addDiscover base s "fresh_arrivals" "Fresh Arrivals"
    [(dateGteKey mk, d.last45), ("sort_by", "popularity.desc")]
  let s := addDiscover base s "popular_now" "Popular Right Now"
    [("vote_count.gte", "250"), ("sort_by", "popularity.desc")]
  let s := addDiscover base s "critically_acclaimed" "Critically Acclaimed"
    [("vote_average.gte", "7.6"), ("vote_count.gte", "1200"), ("sort_by", "vote_average.desc")]
  let s := addDiscover base s "top_rated_recent" "Top-Rated Recent Picks"
    [(dateGteKey mk, d.last5y), ("vote_average.gte", "7.0"), ("vote_count.gte", "500"),
     ("sort_by", "vote_average.desc")]
  let s := addDiscover base s "hidden_gems" "Hidden Gems"
    [("vote_average.gte", "7.2"), ("vote_count.gte", "80"), ("vote_count.lte", "700"),
     ("sort_by", "vote_average.desc")]
  let s := addDiscover base s "under_the_radar_recent" "Under-the-Radar Recent Picks"
    [(dateGteKey mk, d.last365), ("vote_average.gte", "6.8"), ("vote_count.gte", "40"),
     ("vote_count.lte", "900"), ("sort_by", "vote_average.desc")]
  let s := addDiscover base s "global_breakouts" "Global Breakouts"
    [(dateGteKey mk, d.last5y), ("vote_count.gte", "500"), ("vote_count.lte", "4000"),
     ("sort_by", "popularity.desc")]
  let s := addGenreDiscover base gid s "action_adventure_hits" "Action & Adventure Hits"
    ["Action", "Adventure"] "and" []
  let s := addGenreDiscover base gid s "adrenaline_rush" "Adrenaline Rush"
    ["Action", "Thriller"] "and" [("vote_count.gte", "200"), ("sort_by", "popularity.desc")]
  let s := addGenreDiscover base gid s "mystery_thrillers" "Mystery & Thriller Picks"
    ["Mystery", "Thriller"] "and" [("vote_average.gte", "6.5"), ("sort_by", "vote_average.desc")]
  let s := addGenreDiscover base gid s "crime_noir" "Crime Stories"
    ["Crime", "Drama"] "and" []
  let s := addGenreDiscover base gid s "fantasy_worlds" "Fantasy Worlds"
    ["Fantasy", "Adventure"] "and" []
  let s := addGenreDiscover base gid s "sci_fi_frontiers" "Sci-Fi Frontiers"
    ["Science Fiction", "Sci-Fi & Fantasy"] "or" [("vote_count.gte", "150")]
  let s := addGenreDiscover base gid s "war_history_epics" "War & History Epics"
    ["War", "History", "War & Politics"] "or" []
  let s := addGenreDiscover base gid s "heartfelt_dramas" "Heartfelt Dramas"
    ["Drama"] "or" [("vote_average.gte", "6.8")]
  let s := addGenreDiscover base gid s "romance_corner" "Romance Corner"
    ["Romance"] "or" []
  let s := addGenreDiscover base gid s "comedy_pick_me_up" "Comedy Pick-Me-Up"
    ["Comedy"] "or" []
  let s := addGenreDiscover base gid s "family_fun" "Family Fun"
    ["Family", "Animation", "Kids"] "or" []
  let s := addGenreDiscover base gid s "animation_highlights" "Animation Highlights"
    ["Animation"] "or" [("vote_average.gte", "6.0")]
  let s := addGenreDiscover base gid s "horror_after_dark" "Horror After Dark"
    ["Horror"] "or" []
  let s := addGenreDiscover base gid s "documentary_deep_dive" "Documentary Deep Dive"
    ["Documentary"] "or" []
  let s := addGenreDiscover base gid s "music_and_musicals" "Music & Musicals"
    ["Music"] "or" []
  let s := addGenreDiscover base gid s "western_frontier" "Western Frontier"
    ["Western"] "or" []
  let s :=
    if mk = MediaKind.tv ∨ mk = MediaKind.mix then
      let s := addGenreDiscover base gid s "bingeworthy_series" "Binge-Worthy Series"
        ["Drama", "Crime", "Mystery"] "or" [("vote_count.gte", "150"), ("vote_average.gte", "6.8")]
      let s := addGenreDiscover base gid s "docu_series" "Docu-Series"
        ["Documentary", "Crime"] "or" []
      let s := addGenreDiscover base gid s "political_intrigue" "Political Intrigue"
        ["War & Politics", "Drama"] "or" []
      let s := addGenreDiscover base gid s "reality_watch" "Reality Watch"
        ["Reality"] "or" []
      let s := addGenreDiscover base gid s "talk_variety" "Talk & Variety"
        ["Talk"] "or" []
      addGenreDiscover base gid s "soap_serials" "Soap Serials" ["Soap"] "or" []
    else s
  let s := decadesList.foldl
    (fun acc dec => addDiscover base acc ("decade_" ++ toString dec ++ "s")
      (toString dec ++ "s Essentials")
      [(dateGteKey mk, toString dec ++ "-01-01"), (dateLteKey mk, toString (dec + 9) ++ "-12-31"),
       ("vote_count.gte", "120"), ("sort_by", "popularity.desc")]) s
  let s := LANGUAGE_SPOTLIGHTS.foldl
    (fun acc ls => addDiscover base acc ("langspot_" ++ ls.2)
      ("International: " ++ ls.1)
      [("with_original_language", ls.2), ("sort_by", "popularity.desc")]) s
  let s :=
    if mk = MediaKind.movie then
      let s := addDiscover base s "quick_watches" "Quick Watches"
        [("with_runtime.lte", "95"), ("vote_count.gte", "100")]
      let s := addDiscover base s "movie_night_length" "Movie Night Length"
        [("with_runtime.gte", "95"), ("with_runtime.lte", "130")]
      addDiscover base s "epic_runtime" "Epic Runtime"
        [("with_runtime.gte", "150"), ("vote_count.gte", "250")]
    else s
  s

/-- One step of the genre-shelf append loop shared by
`_home_section_config` and `_guest_section_config`: appends
`genre_{id}` shelves for the ordered genres, skipping ids already used. -/
def genreSectionStep (params0 : Params) (acc : List Sec) (g : Genre) : List Sec :=
  if ("genre_" ++ toString g.id) ∈ secIds acc then acc
  else acc ++ [{ id := "genre_" ++ toString g.id, title := "Genre: " ++ g.name,
                 kind := SecKind.genre, genreId := some g.id, params := params0 }]

/-- The genre-shelf append loop over the ordered genre list. -/
def appendGenreSections (params0 : Params) (secs : List Sec)
    (genres : List Genre) : List Sec :=
  (orderedGenres genres).foldl (genreSectionStep params0) secs

/-- Embeds the section list built by `_guest_section_config(media_type,
country)` (the body behind its config cache): trending and top-rated, the
exploration shelves — all over `{"watch_region": country}` base params —
then the genre shelves.  No recently-added shelf is ever built here. -/
def guestSectionConfigSections (mk : MediaKind) (country : String)
    (genres : List Genre) (gid : String → Option Nat) (d : DatesCtx) : List Sec :=
  let base : Params := [("watch_region", country)]
  let secs : List Sec :=
    [{ id := "trending_day", title := "Trending Today", kind := SecKind.trending,
       timeWindow := "day" },
     { id := "top_rated", title := "Top Rated", kind := SecKind.topRated,
       params := base }]
  let secs := secs ++ explorationSections mk gid base d
  appendGenreSections base secs genres

/-- Embeds the section list built by `_home_section_config(provider_ids,
countries, media_type)` (the body behind its config cache): trending and
top-rated, the exploration shelves, the recently-added shelf (catalog-scoped
when provider ids are given; `catalogs` is the resolved streaming-catalog
list, an oracle input), then the genre shelves. -/
def homeSectionConfigSections (mk : MediaKind) (providerIds : List Nat)
    (catalogs : List String) (countries : List String) (genres : List Genre)
    (gid : String → Option Nat) (d : DatesCtx) : List Sec :=
  let secs : List Sec :=
    [{ id := "trending_day", title := "Trending Today", kind := SecKind.trending,
       timeWindow := "day" },
     { id := "top_rated", title := "Top Rated", kind := SecKind.topRated }]
  let recently : Sec :=
    { id := "recently_added", title := "Recently Added to Streaming",
      kind := SecKind.recentlyAdded,
      catalogs := if providerIds.isEmpty then [] else catalogs,
      countries := if providerIds.isEmpty then [] else countries }
  let secs := secs ++ explorationSections mk gid [] d
  let secs := secs ++ [recently]
  appendGenreSections [] secs genres

/-- Embeds `_normalize_country_code(country)`: strip, uppercase, and require
exactly two ASCII letters. -/
def normalizeCountryCode (country : Option String) : Option String :=
  match country with
  | none => none
  | some c =>
    if c = "" then none
    else
      let code := strUpper (strTrim c)
      if code.length = 2 ∧ code.data.all Char.isAlpha then some code else none

/-- Which serving path a `/api/home` request takes. -/
inductive HomePath
  | guest (country : String)
  | personalized
  | needProviders
deriving DecidableEq, Repr

/-- Embeds the path dispatch of the `/api/home` handler: `unfiltered` always
serves the guest feed (country resolved from the parameter, then the saved
countries, then "US"); with no resolved provider ids the guest feed is
served when a country resolves and an empty prompt payload otherwise; only
requests with provider ids reach the personalized filtering path. -/
def homeRoute (ids : List Nat) (unfiltered : Bool) (countryParam : Option String)
    (userCountries : List String) : HomePath :=
  let guestCountry := normalizeCountryCode countryParam
  if unfiltered then
    HomePath.guest
      ((guestCountry.orElse
        (fun _ => normalizeCountryCode (some (userCountries.headD "US")))).getD "US")
  else if ids.isEmpty then
    match guestCountry with
    | some c => HomePath.guest c
    | none => HomePath.needProviders
  else HomePath.personalized

theorem diversifyFirstPass_subset (fb : MediaKind) (limit : Nat) :
    ∀ (l : List Item) (ss gs : List RowKey) (acc : List Item),
      gs ⊆ (diversifyFirstPass fb limit l ss gs acc).2 := by
  intro l
  induction l with
  | nil => intro ss gs acc; simp [diversifyFirstPass]
  | cons item rest ih =>
    intro ss gs acc
    simp only [diversifyFirstPass]
    rcases hk : itemRowKey fb item with _ | key
    · exact ih ss gs acc
    · by_cases h1 : key ∈ ss
      · simp only [if_pos h1]; exact ih ss gs acc
      · simp only [if_neg h1]
        by_cases h2 : key ∈ gs
        · simp only [if_pos h2]; exact ih _ gs acc
        · simp only [if_neg h2]
          by_cases h3 : limit ≤ acc.length + 1
          · simp only [if_pos h3]
            exact List.subset_cons_of_subset key (List.Subset.refl gs)
          · simp only [if_neg h3]
            exact fun a ha => ih _ (key :: gs) (acc ++ [item]) (List.mem_cons_of_mem key ha)

theorem diversifyFirstPass_mem (fb : MediaKind) (limit : Nat) :
    ∀ (l : List Item) (ss gs : List RowKey) (acc : List Item),
      ∀ x ∈ (diversifyFirstPass fb limit l ss gs acc).1,
        x ∈ acc ∨ ∃ k, itemRowKey fb x = some k ∧ k ∉ gs ∧
          k ∈ (diversifyFirstPass fb limit l ss gs acc).2 := by
  intro l
  induction l with
  | nil => intro ss gs acc x hx; exact Or.inl hx
  | cons item rest ih =>
    intro ss gs acc x hx
    simp only [diversifyFirstPass] at hx ⊢
    rcases hk : itemRowKey fb item with _ | key <;> simp only [hk] at hx ⊢
    · exact ih ss gs acc x hx
    · by_cases h1 : key ∈ ss
      · simp only [if_pos h1] at hx ⊢; exact ih ss gs acc x hx
      · simp only [if_neg h1] at hx ⊢
        by_cases h2 : key ∈ gs
        · simp only [if_pos h2] at hx ⊢; exact ih _ gs acc x hx
        · simp only [if_neg h2] at hx ⊢
          by_cases h3 : limit ≤ acc.length + 1
          · simp only [if_pos h3] at hx ⊢
            rcases List.mem_append.mp hx with h | h
            · exact Or.inl h
            · have hxi : x = item := by simpa using h
              subst hxi
              exact Or.inr ⟨key, hk, h2, List.mem_cons_self key gs⟩
          · simp only [if_neg h3] at hx ⊢
            rcases ih (key :: ss) (key :: gs) (acc ++ [item]) x hx with h | ⟨k, hk', hkg, hkm⟩
            · rcases List.mem_append.mp h with h' | h'
              · exact Or.inl h'
              · have hxi : x = item := by simpa using h'
                subst hxi
                refine Or.inr ⟨key, hk, h2, ?_⟩
                exact diversifyFirstPass_subset fb limit rest (key :: ss) (key :: gs)
                  (acc ++ [x]) (List.mem_cons_self key gs)
            · exact Or.inr ⟨k, hk', fun hg => hkg (List.mem_cons_of_mem key hg), hkm⟩

theorem itemKeys_append (fb : MediaKind) (l1 l2 : List Item) :
    itemKeys fb (l1 ++ l2) = itemKeys fb l1 ++ itemKeys fb l2 := by
  simp [itemKeys]

theorem itemKeys_take_sublist (fb : MediaKind) (n : Nat) (l : List Item) :
    (itemKeys fb (l.take n)).Sublist (itemKeys fb l) :=
  List.Sublist.filterMap _ (List.take_sublist n l)

theorem diversifyFirstPass_nodup (fb : MediaKind) (limit : Nat) :
    ∀ (l : List Item) (ss gs : List RowKey) (acc : List Item),
      (∀ k ∈ itemKeys fb acc, k ∈ ss) → (itemKeys fb acc).Nodup →
      (itemKeys fb (diversifyFirstPass fb limit l ss gs acc).1).Nodup := by
  intro l
  induction l with
  | nil => intro ss gs acc _ hnd; exact hnd
  | cons item rest ih =>
    intro ss gs acc hss hnd
    simp only [diversifyFirstPass]
    rcases hk : itemRowKey fb item with _ | key <;> simp only [hk]
    · exact ih ss gs acc hss hnd
    · by_cases h1 : key ∈ ss
      · simp only [if_pos h1]; exact ih ss gs acc hss hnd
      · simp only [if_neg h1]
        have hknacc : key ∉ itemKeys fb acc := fun hin => h1 (hss key hin)
        have hkeys : itemKeys fb (acc ++ [item]) = itemKeys fb acc ++ [key] := by
          simp [itemKeys_append, itemKeys, hk]
        have hnd' : (itemKeys fb (acc ++ [item])).Nodup := by
          rw [hkeys]
          simp [List.nodup_append, hnd, hknacc]
        have hss' : ∀ k ∈ itemKeys fb (acc ++ [item]), k ∈ key :: ss := by
          intro k hkin
          rw [hkeys] at hkin
          rcases List.mem_append.mp hkin with h | h
          · exact List.mem_cons_of_mem key (hss k h)
          · simp only [List.mem_singleton] at h
            subst h
            exact List.mem_cons_self k ss
        by_cases h2 : key ∈ gs
        · simp only [if_pos h2]
          exact ih _ gs acc (fun k hkin => List.mem_cons_of_mem key (hss k hkin)) hnd
        · simp only [if_neg h2]
          by_cases h3 : limit ≤ acc.length + 1
          · simp only [if_pos h3]
            exact hnd'
          · simp only [if_neg h3]
            exact ih _ _ _ hss' hnd'

theorem diversifyBackfill_nodup (fb : MediaKind) (limit : Nat) :
    ∀ (l : List Item) (used : List RowKey) (acc : List Item),
      (∀ k ∈ itemKeys fb acc, k ∈ used) → (itemKeys fb acc).Nodup →
      (itemKeys fb (diversifyBackfill fb limit l used acc)).Nodup := by
  intro l
  induction l with
  | nil => intro used acc _ hnd; exact hnd
  | cons item rest ih =>
    intro used acc huse hnd
    simp only [diversifyBackfill]
    rcases hk : itemRowKey fb item with _ | key <;> simp only [hk]
    · exact ih used acc huse hnd
    · by_cases h1 : key ∈ used
      · simp only [if_pos h1]; exact ih used acc huse hnd
      · simp only [if_neg h1]
        have hknacc : key ∉ itemKeys fb acc := fun hin => h1 (huse key hin)
        have hkeys : itemKeys fb (acc ++ [item]) = itemKeys fb acc ++ [key] := by
          simp [itemKeys_append, itemKeys, hk]
        have hnd' : (itemKeys fb (acc ++ [item])).Nodup := by
          rw [hkeys]
          simp [List.nodup_append, hnd, hknacc]
        have huse' : ∀ k ∈ itemKeys fb (acc ++ [item]), k ∈ key :: used := by
          intro k hkin
          rw [hkeys] at hkin
          rcases List.mem_append.mp hkin with h | h
          · exact List.mem_cons_of_mem key (huse k h)
          · simp only [List.mem_singleton] at h
            subst h
            exact List.mem_cons_self k used
        by_cases h3 : limit ≤ acc.length + 1
        · simp only [if_pos h3]
          exact hnd'
        · simp only [if_neg h3]
          exact ih _ _ huse' hnd'

theorem diversifyProcessSection_nodup (fb : MediaKind) (limit : Nat)
    (gs : List RowKey) (s : SectionPayload) :
    (itemKeys fb (diversifyProcessSection fb limit gs s).1).Nodup := by
  unfold diversifyProcessSection
  have hfp : (itemKeys fb (diversifyFirstPass fb limit s.results [] gs []).1).Nodup :=
    diversifyFirstPass_nodup fb limit s.results [] gs [] (by simp [itemKeys]) (by simp [itemKeys])
  by_cases h : (diversifyFirstPass fb limit s.results [] gs []).1.length < limit
  · simp only [if_pos h]
    exact diversifyBackfill_nodup fb limit s.results _ _ (fun k hk => hk) hfp
  · simp only [if_neg h]
    exact hfp

theorem diversifyGo_nodup (fb : MediaKind) (limit : Nat) :
    ∀ (secs : List SectionPayload) (gs : List RowKey),
      ∀ s ∈ diversifyGo fb limit gs secs, (itemKeys fb s.results).Nodup := by
  intro secs
  induction secs with
  | nil => intro gs s hs; simp [diversifyGo] at hs
  | cons hd rest ih =>
    intro gs s hs
    simp only [diversifyGo] at hs
    by_cases hemp : (diversifyProcessSection fb limit gs hd).1.isEmpty
    · rw [if_pos hemp] at hs
      exact ih _ s hs
    · rw [if_neg hemp] at hs
      rcases List.mem_cons.mp hs with h | h
      · subst h
        exact (diversifyProcessSection_nodup fb limit gs hd).sublist
          (itemKeys_take_sublist fb limit _)
      · exact ih _ s h

theorem diversifyGo_backfillFree_spec (fb : MediaKind) (limit : Nat) :
    ∀ (secs : List SectionPayload) (gs : List RowKey),
      diversifyBackfillFree fb limit gs secs = true →
      (∀ s ∈ diversifyGo fb limit gs secs, ∀ k ∈ itemKeys fb s.results, k ∉ gs) ∧
      List.Pairwise
        (fun a b => ∀ k, k ∈ itemKeys fb a.results → k ∉ itemKeys fb b.results)
        (diversifyGo fb limit gs secs) := by
  intro secs
  induction secs with
  | nil => intro gs _; simp [diversifyGo]
  | cons hd rest ih =>
    intro gs hfree
    simp only [diversifyBackfillFree, Bool.and_eq_true, decide_eq_true_eq] at hfree
    obtain ⟨hlim, hfree'⟩ := hfree
    have hnotlt : ¬ (diversifyFirstPass fb limit hd.results [] gs []).1.length < limit :=
      Nat.not_lt.mpr hlim
    have hps1 : (diversifyProcessSection fb limit gs hd).1 =
        (diversifyFirstPass fb limit hd.results [] gs []).1 := by
      simp [diversifyProcessSection, if_neg hnotlt]
    have hps2 : (diversifyProcessSection fb limit gs hd).2 =
        (diversifyFirstPass fb limit hd.results [] gs []).2 := rfl
    have hgs : gs ⊆ (diversifyFirstPass fb limit hd.results [] gs []).2 :=
      diversifyFirstPass_subset fb limit hd.results [] gs []
    obtain ⟨ihMem, ihPw⟩ := ih _ hfree'
    have hheadKeys : ∀ k ∈ itemKeys fb ((diversifyProcessSection fb limit gs hd).1.take limit),
        k ∉ gs ∧ k ∈ (diversifyFirstPass fb limit hd.results [] gs []).2 := by
      intro k hk
      have hk' : k ∈ itemKeys fb (diversifyProcessSection fb limit gs hd).1 :=
        (itemKeys_take_sublist fb limit _).mem hk
      rw [hps1] at hk'
      obtain ⟨x, hxmem, hxkey⟩ := List.mem_filterMap.mp hk'
      rcases diversifyFirstPass_mem fb limit hd.results [] gs [] x hxmem with h | ⟨k', hk'', hkg, hkm⟩
      · simp at h
      · rw [hxkey] at hk''
        obtain hkk : k = k' := by injection hk''
        subst hkk
        exact ⟨hkg, hkm⟩
    simp only [diversifyGo]
    by_cases hemp : (diversifyProcessSection fb limit gs hd).1.isEmpty
    · rw [if_pos hemp]
      rw [hps2]
      refine ⟨fun s hs k hk => fun hin => ihMem s hs k hk (hgs hin), ihPw⟩
    · rw [if_neg hemp]
      rw [hps2]
      constructor
      · intro s hs k hk
        rcases List.mem_cons.mp hs with h | h
        · subst h
          exact (hheadKeys k hk).1
        · exact fun hin => ihMem s h k hk (hgs hin)
      · refine List.pairwise_cons.mpr ⟨?_, ihPw⟩
        intro b hb k hk
        have hkm := (hheadKeys k hk).2
        exact fun hin => ihMem b hb k hin hkm

/-- C1 counterexample: with shelf "a" fetching `[X]` and shelf "b" fetching
`[X, Y, Z]` (X = movie 1, Y = movie 2, Z = movie 3) and a per-shelf limit of
3, the diversified response contains X in both shelves: shelf "b"'s backfill
re-adds X even though shelf "a" already used it globally (and "b"'s backfill
stopped at the limit, not because its source was exhausted).  This refutes
the claim that the backfill adds only items not yet globally used by an
earlier shelf. -/
theorem C1_counterexample :
    diversifySections
        [⟨"a", [⟨1, some Media.movie⟩]⟩,
         ⟨"b", [⟨1, some Media.movie⟩, ⟨2, some Media.movie⟩, ⟨3, some Media.movie⟩]⟩]
        MediaKind.movie 3 =
      [⟨"a", [⟨1, some Media.movie⟩]⟩,
       ⟨"b", [⟨2, some Media.movie⟩, ⟨3, some Media.movie⟩, ⟨1, some Media.movie⟩]⟩] ∧
    (Media.movie, 1) ∈ itemKeys MediaKind.movie [⟨1, some Media.movie⟩] ∧
    (Media.movie, 1) ∈ itemKeys MediaKind.movie
      [⟨2, some Media.movie⟩, ⟨3, some Media.movie⟩, ⟨1, some Media.movie⟩] := by
  decide

/-- C1 (amended): the diversifier's backfill step walks the shelf's original
pre-dedup fetched list in order and adds any item whose key is not already
used within that same shelf's result — including items already placed in an
earlier shelf of the pass.  Consequently (1) whenever no shelf's
globally-deduplicated unique set falls below `perShelfLimit` (so no backfill
runs), no (media kind, id) pair appears in two different shelves of the same
diversified response; and (2) within each single diversified shelf no
(media kind, id) pair ever appears twice, backfill or not. -/
theorem C1_thm (secs : List SectionPayload) (mk : MediaKind) (limit : Nat) :
    (diversifyBackfillFree mk limit [] secs = true →
      List.Pairwise
        (fun a b => ∀ k, k ∈ itemKeys mk a.results → k ∉ itemKeys mk b.results)
        (diversifySections secs mk limit)) ∧
    ∀ s ∈ diversifySections secs mk limit, (itemKeys mk s.results).Nodup := by
  constructor
  · intro hfree
    exact (diversifyGo_backfillFree_spec mk limit secs [] hfree).2
  · intro s hs
    exact diversifyGo_nodup mk limit secs [] s hs

/-- C1 witness: applies the amended theorem at a concrete backfill-free
input. -/
theorem C1_thm_witness :
    diversifyBackfillFree MediaKind.movie 1 []
        [⟨"a", [⟨1, some Media.movie⟩]⟩, ⟨"b", [⟨2, some Media.movie⟩]⟩] = true ∧
    List.Pairwise
      (fun a b => ∀ k, k ∈ itemKeys MediaKind.movie a.results →
        k ∉ itemKeys MediaKind.movie b.results)
      (diversifySections
        [⟨"a", [⟨1, some Media.movie⟩]⟩, ⟨"b", [⟨2, some Media.movie⟩]⟩]
        MediaKind.movie 1) :=
  ⟨by decide,
   (C1_thm [⟨"a", [⟨1, some Media.movie⟩]⟩, ⟨"b", [⟨2, some Media.movie⟩]⟩]
      MediaKind.movie 1).1 (by decide)⟩

theorem scanLoop_fetchCount (f : Nat → Except Unit PageData) (fb : MediaKind)
    (fast : Bool) (avail : Item → Bool) (target budget : Nat) :
    ∀ (fuel : Nat) (st st' : ScanState),
      scanLoop f fb fast avail target budget fuel st = Except.ok st' →
      st'.fetchCount ≤ st.fetchCount + (budget - st.scanned) := by
  intro fuel
  induction fuel with
  | zero =>
    intro st st' h
    obtain rfl : st = st' := by simpa [scanLoop] using h
    omega
  | succ fuel ih =>
    intro st st' h
    rw [scanLoop] at h
    by_cases hg : st.pool.length < target ∧ st.scanned < budget
    · rw [if_pos hg] at h
      by_cases ht : st.totalPages ≠ 0 ∧ st.totalPages < st.page
      · rw [if_pos ht] at h
        obtain rfl : st = st' := by simpa using h
        omega
      · rw [if_neg ht] at h
        rcases hf : f st.page with e | d <;> rw [hf] at h <;> simp only [] at h
        · exact absurd h (by simp)
        · by_cases he : d.results.isEmpty
          · rw [if_pos he] at h
            obtain rfl : ({ st with
                totalPages := if d.totalPages ≠ 0 then d.totalPages else st.totalPages,
                fetchCount := st.fetchCount + 1 } : ScanState) = st' := by simpa using h
            simp
            omega
          · rw [if_neg he] at h
            by_cases hstop : (if d.totalPages ≠ 0 then d.totalPages else st.totalPages) ≠ 0 ∧
                (if d.totalPages ≠ 0 then d.totalPages else st.totalPages) ≤ st.page
            · rw [if_pos hstop] at h
              obtain rfl := Except.ok.inj h
              simp
              omega
            · rw [if_neg hstop] at h
              have := ih _ st' h
              simp at this ⊢
              omega
    · rw [if_neg hg] at h
      obtain rfl := Except.ok.inj h
      omega

theorem addToPool_inv (fb : MediaKind) (limit : Nat) :
    ∀ (items pool : List Item) (seen : List RowKey),
      (∀ k ∈ itemKeys fb pool, k ∈ seen) → (itemKeys fb pool).Nodup →
      (∀ k ∈ itemKeys fb (addToPool fb limit items pool seen).1,
          k ∈ (addToPool fb limit items pool seen).2) ∧
      (itemKeys fb (addToPool fb limit items pool seen).1).Nodup := by
  intro items
  induction items with
  | nil => intro pool seen hsub hnd; exact ⟨hsub, hnd⟩
  | cons item rest ih =>
    intro pool seen hsub hnd
    simp only [addToPool]
    rcases hk : itemRowKey fb item with _ | key <;> simp only [hk]
    · exact ih pool seen hsub hnd
    · by_cases h1 : key ∈ seen
      · simp only [if_pos h1]; exact ih pool seen hsub hnd
      · simp only [if_neg h1]
        have hknacc : key ∉ itemKeys fb pool := fun hin => h1 (hsub key hin)
        have hkeys : itemKeys fb (pool ++ [item]) = itemKeys fb pool ++ [key] := by
          simp [itemKeys_append, itemKeys, hk]
        have hnd' : (itemKeys fb (pool ++ [item])).Nodup := by
          rw [hkeys]; simp [List.nodup_append, hnd, hknacc]
        have hsub' : ∀ k ∈ itemKeys fb (pool ++ [item]), k ∈ key :: seen := by
          intro k hkin
          rw [hkeys] at hkin
          rcases List.mem_append.mp hkin with h | h
          · exact List.mem_cons_of_mem key (hsub k h)
          · simp only [List.mem_singleton] at h
            subst h
            exact List.mem_cons_self k seen
        by_cases h3 : limit ≤ pool.length + 1
        · simp only [if_pos h3]
          exact ⟨hsub', hnd'⟩
        · simp only [if_neg h3]
          exact ih _ _ hsub' hnd'

theorem addToPool_mem (fb : MediaKind) (limit : Nat) :
    ∀ (items pool : List Item) (seen : List RowKey),
      ∀ x ∈ (addToPool fb limit items pool seen).1, x ∈ pool ∨ x ∈ items := by
  intro items
  induction items with
  | nil => intro pool seen x hx; exact Or.inl hx
  | cons item rest ih =>
    intro pool seen x hx
    simp only [addToPool] at hx
    rcases hk : itemRowKey fb item with _ | key <;> simp only [hk] at hx
    · rcases ih pool seen x hx with h | h
      · exact Or.inl h
      · exact Or.inr (List.mem_cons_of_mem item h)
    · by_cases h1 : key ∈ seen
      · simp only [if_pos h1] at hx
        rcases ih pool seen x hx with h | h
        · exact Or.inl h
        · exact Or.inr (List.mem_cons_of_mem item h)
      · simp only [if_neg h1] at hx
        by_cases h3 : limit ≤ pool.length + 1
        · simp only [if_pos h3] at hx
          rcases List.mem_append.mp hx with h | h
          · exact Or.inl h
          · have : x = item := by simpa using h
            subst this
            exact Or.inr (List.mem_cons_self x rest)
        · simp only [if_neg h3] at hx
          rcases ih _ _ x hx with h | h
          · rcases List.mem_append.mp h with h' | h'
            · exact Or.inl h'
            · have : x = item := by simpa using h'
              subst this
              exact Or.inr (List.mem_cons_self x rest)
          · exact Or.inr (List.mem_cons_of_mem item h)

theorem scanLoop_ok (f : Nat → Except Unit PageData) (fb : MediaKind)
    (fast : Bool) (avail : Item → Bool) (target budget : Nat)
    (hok : ∀ p, ∃ d, f p = Except.ok d) :
    ∀ (fuel : Nat) (st : ScanState),
      ∃ st', scanLoop f fb fast avail target budget fuel st = Except.ok st' := by
  intro fuel
  induction fuel with
  | zero => intro st; exact ⟨st, rfl⟩
  | succ fuel ih =>
    intro st
    rw [scanLoop]
    by_cases hg : st.pool.length < target ∧ st.scanned < budget
    · rw [if_pos hg]
      by_cases ht : st.totalPages ≠ 0 ∧ st.totalPages < st.page
      · rw [if_pos ht]; exact ⟨st, rfl⟩
      · rw [if_neg ht]
        obtain ⟨d, hd⟩ := hok st.page
        rw [hd]
        simp only []
        by_cases he : d.results.isEmpty
        · rw [if_pos he]; exact ⟨_, rfl⟩
        · rw [if_neg he]
          by_cases hstop : (if d.totalPages ≠ 0 then d.totalPages else st.totalPages) ≠ 0 ∧
              (if d.totalPages ≠ 0 then d.totalPages else st.totalPages) ≤ st.page
          · rw [if_pos hstop]; exact ⟨_, rfl⟩
          · rw [if_neg hstop]; exact ih _
    · rw [if_neg hg]; exact ⟨st, rfl⟩

theorem scanLoop_inv (f : Nat → Except Unit PageData) (fb : MediaKind)
    (fast : Bool) (avail : Item → Bool) (target budget : Nat) :
    ∀ (fuel : Nat) (st st' : ScanState),
      scanLoop f fb fast avail target budget fuel st = Except.ok st' →
      (∀ k ∈ itemKeys fb st.pool, k ∈ st.seen) → (itemKeys fb st.pool).Nodup →
      (∀ k ∈ itemKeys fb st'.pool, k ∈ st'.seen) ∧ (itemKeys fb st'.pool).Nodup := by
  intro fuel
  induction fuel with
  | zero =>
    intro st st' h hsub hnd
    obtain rfl : st = st' := by simpa [scanLoop] using h
    exact ⟨hsub, hnd⟩
  | succ fuel ih =>
    intro st st' h hsub hnd
    rw [scanLoop] at h
    by_cases hg : st.pool.length < target ∧ st.scanned < budget
    · rw [if_pos hg] at h
      by_cases ht : st.totalPages ≠ 0 ∧ st.totalPages < st.page
      · rw [if_pos ht] at h
        obtain rfl := Except.ok.inj h
        exact ⟨hsub, hnd⟩
      · rw [if_neg ht] at h
        rcases hf : f st.page with e | d <;> rw [hf] at h <;> simp only [] at h
        · exact absurd h (by simp)
        · by_cases he : d.results.isEmpty
          · rw [if_pos he] at h
            obtain rfl := Except.ok.inj h
            exact ⟨hsub, hnd⟩
          · rw [if_neg he] at h
            obtain ⟨hsub', hnd'⟩ := addToPool_inv fb target
              (if fast = true then d.results else filterResults avail d.results)
              st.pool st.seen hsub hnd
            by_cases hstop : (if d.totalPages ≠ 0 then d.totalPages else st.totalPages) ≠ 0 ∧
                (if d.totalPages ≠ 0 then d.totalPages else st.totalPages) ≤ st.page
            · rw [if_pos hstop] at h
              obtain rfl := Except.ok.inj h
              exact ⟨hsub', hnd'⟩
            · rw [if_neg hstop] at h
              exact ih _ st' h hsub' hnd'
    · rw [if_neg hg] at h
      obtain rfl := Except.ok.inj h
      exact ⟨hsub, hnd⟩

theorem scanLoop_avail (f : Nat → Except Unit PageData) (fb : MediaKind)
    (avail : Item → Bool) (target budget : Nat) :
    ∀ (fuel : Nat) (st st' : ScanState),
      scanLoop f fb false avail target budget fuel st = Except.ok st' →
      (∀ x ∈ st.pool, avail x = true) →
      ∀ x ∈ st'.pool, avail x = true := by
  intro fuel
  induction fuel with
  | zero =>
    intro st st' h hav
    obtain rfl : st = st' := by simpa [scanLoop] using h
    exact hav
  | succ fuel ih =>
    intro st st' h hav
    rw [scanLoop] at h
    by_cases hg : st.pool.length < target ∧ st.scanned < budget
    · rw [if_pos hg] at h
      by_cases ht : st.totalPages ≠ 0 ∧ st.totalPages < st.page
      · rw [if_pos ht] at h
        obtain rfl := Except.ok.inj h
        exact hav
      · rw [if_neg ht] at h
        rcases hf : f st.page with e | d <;> rw [hf] at h <;> simp only [] at h
        · exact absurd h (by simp)
        · by_cases he : d.results.isEmpty
          · rw [if_pos he] at h
            obtain rfl := Except.ok.inj h
            exact hav
          · rw [if_neg he] at h
            have hav' : ∀ x ∈ (addToPool fb target
                (if false = true then d.results else filterResults avail d.results)
                st.pool st.seen).1, avail x = true := by
              intro x hx
              rcases addToPool_mem fb target _ st.pool st.seen x hx with hmem | hmem
              · exact hav x hmem
              · simp only [if_neg (by simp : ¬ (false = true))] at hmem
                exact (List.mem_filter.mp hmem).2
            by_cases hstop : (if d.totalPages ≠ 0 then d.totalPages else st.totalPages) ≠ 0 ∧
                (if d.totalPages ≠ 0 then d.totalPages else st.totalPages) ≤ st.page
            · rw [if_pos hstop] at h
              obtain rfl := Except.ok.inj h
              exact hav'
            · rw [if_neg hstop] at h
              exact ih _ st' h hav'
    · rw [if_neg hg] at h
      obtain rfl := Except.ok.inj h
      exact hav

theorem scanLoop_checked (f : Nat → Except Unit PageData) (fb : MediaKind)
    (avail : Item → Bool) (target budget : Nat) :
    ∀ (fuel : Nat) (st st' : ScanState),
      scanLoop f fb true avail target budget fuel st = Except.ok st' →
      st'.checked = st.checked := by
  intro fuel
  induction fuel with
  | zero =>
    intro st st' h
    obtain rfl : st = st' := by simpa [scanLoop] using h
    rfl
  | succ fuel ih =>
    intro st st' h
    rw [scanLoop] at h
    by_cases hg : st.pool.length < target ∧ st.scanned < budget
    · rw [if_pos hg] at h
      by_cases ht : st.totalPages ≠ 0 ∧ st.totalPages < st.page
      · rw [if_pos ht] at h
        obtain rfl := Except.ok.inj h
        rfl
      · rw [if_neg ht] at h
        rcases hf : f st.page with e | d <;> rw [hf] at h <;> simp only [] at h
        · exact absurd h (by simp)
        · by_cases he : d.results.isEmpty
          · rw [if_pos he] at h
            obtain rfl := Except.ok.inj h
            rfl
          · rw [if_neg he] at h
            by_cases hstop : (if d.totalPages ≠ 0 then d.totalPages else st.totalPages) ≠ 0 ∧
                (if d.totalPages ≠ 0 then d.totalPages else st.totalPages) ≤ st.page
            · rw [if_pos hstop] at h
              obtain rfl := Except.ok.inj h
              simp
            · rw [if_neg hstop] at h
              have := ih _ st' h
              simpa using this
    · rw [if_neg hg] at h
      obtain rfl := Except.ok.inj h
      rfl

theorem scanLoop_pool_empty (f : Nat → Except Unit PageData) (fb : MediaKind)
    (fast : Bool) (avail : Item → Bool) (target budget : Nat)
    (hz : ∀ p d, f p = Except.ok d →
      d.results = [] ∨ (fast = false ∧ filterResults avail d.results = [])) :
    ∀ (fuel : Nat) (st st' : ScanState),
      scanLoop f fb fast avail target budget fuel st = Except.ok st' →
      st.pool = [] → st'.pool = [] := by
  intro fuel
  induction fuel with
  | zero =>
    intro st st' h hp
    obtain rfl : st = st' := by simpa [scanLoop] using h
    exact hp
  | succ fuel ih =>
    intro st st' h hp
    rw [scanLoop] at h
    by_cases hg : st.pool.length < target ∧ st.scanned < budget
    · rw [if_pos hg] at h
      by_cases ht : st.totalPages ≠ 0 ∧ st.totalPages < st.page
      · rw [if_pos ht] at h
        obtain rfl := Except.ok.inj h
        exact hp
      · rw [if_neg ht] at h
        rcases hf : f st.page with e | d <;> rw [hf] at h <;> simp only [] at h
        · exact absurd h (by simp)
        · by_cases he : d.results.isEmpty
          · rw [if_pos he] at h
            obtain rfl := Except.ok.inj h
            exact hp
          · rw [if_neg he] at h
            rcases hz st.page d hf with hres | ⟨hfast, hfil⟩
            · exact absurd (by simp [hres] : d.results.isEmpty = true) he
            · subst hfast
              have hfil' : (if false = true then d.results
                  else filterResults avail d.results) = [] := by
                simpa using hfil
              rw [hfil'] at h
              have hadd : addToPool fb target [] st.pool st.seen = (st.pool, st.seen) := rfl
              rw [hadd] at h
              by_cases hstop : (if d.totalPages ≠ 0 then d.totalPages else st.totalPages) ≠ 0 ∧
                  (if d.totalPages ≠ 0 then d.totalPages else st.totalPages) ≤ st.page
              · rw [if_pos hstop] at h
                obtain rfl := Except.ok.inj h
                exact hp
              · rw [if_neg hstop] at h
                exact ih _ st' h hp
    · rw [if_neg hg] at h
      obtain rfl := Except.ok.inj h
      exact hp

theorem itemRowKey_eq_some (fb : MediaKind) (x : Item) (k : RowKey)
    (h : itemRowKey fb x = some k) : k.2 = x.id ∧ x.id ≠ 0 := by
  unfold itemRowKey at h
  by_cases hz : x.id = 0
  · rw [if_pos hz] at h
    exact absurd h (by simp)
  · rw [if_neg hz] at h
    obtain rfl := Option.some.inj h
    exact ⟨rfl, hz⟩

theorem itemKeys_nodup_of_resultIds_nodup (fb : MediaKind) :
    ∀ l : List Item, (resultIds l).Nodup → (itemKeys fb l).Nodup := by
  intro l
  induction l with
  | nil => intro _; simp [itemKeys]
  | cons m rest ih =>
    intro hnd
    simp only [resultIds, List.map_cons, List.nodup_cons] at hnd
    obtain ⟨hm, hrest⟩ := hnd
    rcases hk : itemRowKey fb m with _ | key
    · have : itemKeys fb (m :: rest) = itemKeys fb rest := by
        simp [itemKeys, hk]
      rw [this]
      exact ih hrest
    · have : itemKeys fb (m :: rest) = key :: itemKeys fb rest := by
        simp [itemKeys, hk]
      rw [this]
      refine List.nodup_cons.mpr ⟨?_, ih hrest⟩
      intro hmem
      obtain ⟨x, hxmem, hxk⟩ := List.mem_filterMap.mp hmem
      have h1 := (itemRowKey_eq_some fb m key hk).1
      have h2 := (itemRowKey_eq_some fb x key hxk).1
      apply hm
      have hmx : m.id = x.id := by rw [← h1, h2]
      rw [hmx]
      exact List.mem_map.mpr ⟨x, hxmem, rfl⟩

theorem addByIdLoop_inv (limit : Nat) :
    ∀ (items res : List Item) (seen : List Nat),
      (∀ i ∈ resultIds res, i ∈ seen) → (resultIds res).Nodup →
      (∀ i ∈ resultIds (addByIdLoop limit items res seen).1,
          i ∈ (addByIdLoop limit items res seen).2) ∧
      (resultIds (addByIdLoop limit items res seen).1).Nodup := by
  intro items
  induction items with
  | nil => intro res seen hsub hnd; exact ⟨hsub, hnd⟩
  | cons m rest ih =>
    intro res seen hsub hnd
    simp only [addByIdLoop]
    by_cases h1 : m.id = 0 ∨ m.id ∈ seen
    · simp only [if_pos h1]; exact ih res seen hsub hnd
    · simp only [if_neg h1]
      push_neg at h1
      obtain ⟨hz, hns⟩ := h1
      have hmn : m.id ∉ resultIds res := fun hin => hns (hsub _ hin)
      have hids : resultIds (res ++ [m]) = resultIds res ++ [m.id] := by
        simp [resultIds]
      have hnd' : (resultIds (res ++ [m])).Nodup := by
        rw [hids]; simp [List.nodup_append, hnd, hmn]
      have hsub' : ∀ i ∈ resultIds (res ++ [m]), i ∈ m.id :: seen := by
        intro i hi
        rw [hids] at hi
        rcases List.mem_append.mp hi with h | h
        · exact List.mem_cons_of_mem _ (hsub i h)
        · simp only [List.mem_singleton] at h
          subst h
          exact List.mem_cons_self _ seen
      by_cases h3 : limit ≤ res.length + 1
      · simp only [if_pos h3]
        exact ⟨hsub', hnd'⟩
      · simp only [if_neg h3]
        exact ih _ _ hsub' hnd'

theorem sectionScanLoop_inv (fetch : Nat → Except Unit PageData) (fast : Bool)
    (avail : Item → Bool) (targetCount maxScan : Nat) :
    ∀ (fuel : Nat) (st st' : SectionScanState),
      sectionScanLoop fetch fast avail targetCount maxScan fuel st = Except.ok st' →
      (∀ i ∈ resultIds st.results, i ∈ st.seenIds) → (resultIds st.results).Nodup →
      (∀ i ∈ resultIds st'.results, i ∈ st'.seenIds) ∧ (resultIds st'.results).Nodup := by
  intro fuel
  induction fuel with
  | zero =>
    intro st st' h hsub hnd
    obtain rfl : st = st' := by simpa [sectionScanLoop] using h
    exact ⟨hsub, hnd⟩
  | succ fuel ih =>
    intro st st' h hsub hnd
    rw [sectionScanLoop] at h
    by_cases hg : st.results.length < targetCount
    · rw [if_pos hg] at h
      by_cases ht : st.totalPages ≠ 0 ∧ st.totalPages < st.page
      · rw [if_pos ht] at h
        obtain rfl := Except.ok.inj h
        exact ⟨hsub, hnd⟩
      · rw [if_neg ht] at h
        by_cases hb : maxScan ≤ st.scanned
        · rw [if_pos hb] at h
          obtain rfl := Except.ok.inj h
          exact ⟨hsub, hnd⟩
        · rw [if_neg hb] at h
          rcases hf : fetch st.page with e | d <;> rw [hf] at h <;> simp only [] at h
          · exact absurd h (by simp)
          · obtain ⟨hsub', hnd'⟩ := addByIdLoop_inv targetCount
              (if fast = true then d.results else filterResults avail d.results)
              st.results st.seenIds hsub hnd
            by_cases he : d.results.isEmpty
            · rw [if_pos he] at h
              obtain rfl := Except.ok.inj h
              exact ⟨hsub', hnd'⟩
            · rw [if_neg he] at h
              by_cases hfull : targetCount ≤
                  (addByIdLoop targetCount
                    (if fast = true then d.results else filterResults avail d.results)
                    st.results st.seenIds).1.length
              · rw [if_pos hfull] at h
                obtain rfl := Except.ok.inj h
                exact ⟨hsub', hnd'⟩
              · rw [if_neg hfull] at h
                exact ih _ st' h hsub' hnd'
    · rw [if_neg hg] at h
      obtain rfl := Except.ok.inj h
      exact ⟨hsub, hnd⟩

theorem lookupKV_append (l1 l2 : Params) (k : String) :
    lookupKV (l1 ++ l2) k =
      match lookupKV l1 k with
      | some v => some v
      | none => lookupKV l2 k := by
  induction l1 with
  | nil => simp [lookupKV]
  | cons kv rest ih =>
    by_cases hk : k = kv.1
    · simp [lookupKV, hk]
    · simp only [List.cons_append, lookupKV, if_neg hk]
      exact ih

theorem lookupKV_filter_upd (base upd : Params) (k : String) :
    lookupKV (base.filter (fun kv => (lookupKV upd kv.1).isNone)) k =
      if (lookupKV upd k).isNone then lookupKV base k else none := by
  induction base with
  | nil => simp [lookupKV]
  | cons kv rest ih =>
    simp only [List.filter_cons]
    by_cases hkeep : (lookupKV upd kv.1).isNone
    · simp only [if_pos hkeep]
      by_cases hk : k = kv.1
      · rw [hk]
        simp [lookupKV, hkeep]
      · simp only [lookupKV, if_neg hk]
        exact ih
    · simp only [if_neg hkeep]
      by_cases hk : k = kv.1
      · rw [hk] at ih ⊢
        rw [ih]
        simp only [Bool.not_eq_true] at hkeep
        simp [hkeep]
      · rw [ih]
        by_cases hn : (lookupKV upd k).isNone
        · simp [hn, lookupKV, hk]
        · simp [hn]

theorem lookupKV_dictUpdate (base upd : Params) (k : String) :
    lookupKV (dictUpdate base upd) k =
      match lookupKV upd k with
      | some v => some v
      | none => lookupKV base k := by
  unfold dictUpdate
  rw [lookupKV_append, lookupKV_filter_upd]
  cases hu : lookupKV upd k with
  | none =>
    simp only [hu, Option.isNone_none, if_pos]
    cases hb : lookupKV base k <;> simp [hb, hu]
  | some v =>
    simp [hu]

/-- C3: every section pool build with a non-raising adapter terminates with
at most `primaryScanBudget + secondaryScanBudget` upstream page fetches
(the per-shelf `section_max_scan_pages` and `section_extra_max_scan_pages`),
and when the adapter always yields zero matching items — an empty page, or a
page on which per-item filtering approves nothing — the build returns an
empty pool without raising. -/
theorem C3_thm (adapter : Sec → Nat → Except Unit PageData)
    (recentFetch : Except Unit RecentData) (avail : Item → Bool)
    (pids : List Nat) (allowed : Option (List String)) (includePaid : Bool)
    (mk : MediaKind) (recentFloor : String) (s : Sec)
    (hkind : s.kind ≠ SecKind.recentlyAdded)
    (hok : ∀ s' p, ∃ d, adapter s' p = Except.ok d) :
    ∃ r, buildSectionPool adapter recentFetch avail pids allowed includePaid
        mk recentFloor s = Except.ok r ∧
      r.fetchCount ≤
        sectionMaxScanPages s.kind
          (useTrendingDiscoverFallback
            (discoverProviderFilterParams pids allowed includePaid) s.kind)
          (useFastDiscoverFilter
            (discoverProviderFilterParams pids allowed includePaid) s.kind) +
        sectionExtraMaxScanPages s.kind
          (useTrendingDiscoverFallback
            (discoverProviderFilterParams pids allowed includePaid) s.kind)
          (useFastDiscoverFilter
            (discoverProviderFilterParams pids allowed includePaid) s.kind) ∧
      ((∀ s' p d, adapter s' p = Except.ok d →
          d.results = [] ∨
          (useFastDiscoverFilter
              (discoverProviderFilterParams pids allowed includePaid) s.kind = false ∧
           filterResults avail d.results = [])) →
        r.pool = []) := by
  simp only [buildSectionPool, if_neg hkind]
  obtain ⟨st1, h1⟩ := scanLoop_ok
    (adapter (sectionForFetch s mk recentFloor
      (discoverProviderFilterParams pids allowed includePaid)))
    mk (useFastDiscoverFilter (discoverProviderFilterParams pids allowed includePaid) s.kind)
    avail
    (sectionPoolTarget s.kind
      (useFastDiscoverFilter (discoverProviderFilterParams pids allowed includePaid) s.kind))
    (sectionMaxScanPages s.kind
      (useTrendingDiscoverFallback (discoverProviderFilterParams pids allowed includePaid) s.kind)
      (useFastDiscoverFilter (discoverProviderFilterParams pids allowed includePaid) s.kind))
    (fun p => hok _ p)
    (sectionMaxScanPages s.kind
      (useTrendingDiscoverFallback (discoverProviderFilterParams pids allowed includePaid) s.kind)
      (useFastDiscoverFilter (discoverProviderFilterParams pids allowed includePaid) s.kind))
    {}
  rw [h1]
  simp only []
  obtain ⟨st2, h2⟩ := scanLoop_ok
    (adapter (sectionForFetch s mk recentFloor
      (discoverProviderFilterParams pids allowed includePaid)))
    mk (useFastDiscoverFilter (discoverProviderFilterParams pids allowed includePaid) s.kind)
    avail rowLimit
    (sectionExtraMaxScanPages s.kind
      (useTrendingDiscoverFallback (discoverProviderFilterParams pids allowed includePaid) s.kind)
      (useFastDiscoverFilter (discoverProviderFilterParams pids allowed includePaid) s.kind))
    (fun p => hok _ p)
    (sectionExtraMaxScanPages s.kind
      (useTrendingDiscoverFallback (discoverProviderFilterParams pids allowed includePaid) s.kind)
      (useFastDiscoverFilter (discoverProviderFilterParams pids allowed includePaid) s.kind))
    st1
  rw [h2]
  simp only []
  refine ⟨_, rfl, ?_, ?_⟩
  · have b1 := scanLoop_fetchCount _ _ _ _ _ _ _ _ _ h1
    have b2 := scanLoop_fetchCount _ _ _ _ _ _ _ _ _ h2
    simp only [] at b1 b2 ⊢
    omega
  · intro hempty
    have hz1 : ∀ p d,
        adapter (sectionForFetch s mk recentFloor
          (discoverProviderFilterParams pids allowed includePaid)) p = Except.ok d →
        d.results = [] ∨
        (useFastDiscoverFilter (discoverProviderFilterParams pids allowed includePaid)
            s.kind = false ∧ filterResults avail d.results = []) :=
      fun p d hd => hempty _ p d hd
    have e1 := scanLoop_pool_empty _ _ _ _ _ _ hz1 _ _ _ h1 rfl
    have e2 := scanLoop_pool_empty _ _ _ _ _ _ hz1 _ _ _ h2 e1
    exact e2

/-- C3 witness: a concrete build against an adapter returning empty pages:
one fetch in each loop, empty pool, no error. -/
theorem C3_thm_witness :
    ∃ r, buildSectionPool (fun _ _ => Except.ok {}) (Except.ok {}) (fun _ => true)
        [] none false MediaKind.movie "" { id := "top_rated", kind := SecKind.topRated }
        = Except.ok r ∧
      r.fetchCount ≤
        sectionMaxScanPages SecKind.topRated
          (useTrendingDiscoverFallback (discoverProviderFilterParams [] none false)
            SecKind.topRated)
          (useFastDiscoverFilter (discoverProviderFilterParams [] none false)
            SecKind.topRated) +
        sectionExtraMaxScanPages SecKind.topRated
          (useTrendingDiscoverFallback (discoverProviderFilterParams [] none false)
            SecKind.topRated)
          (useFastDiscoverFilter (discoverProviderFilterParams [] none false)
            SecKind.topRated) ∧
      ((∀ (s' : Sec) (p : Nat) (d : PageData),
          (Except.ok {} : Except Unit PageData) = Except.ok d →
          d.results = [] ∨
          (useFastDiscoverFilter (discoverProviderFilterParams [] none false)
              SecKind.topRated = false ∧
           filterResults (fun _ => true) d.results = [])) →
        r.pool = []) :=
  C3_thm (fun _ _ => Except.ok {}) (Except.ok {}) (fun _ => true)
    [] none false MediaKind.movie "" { id := "top_rated", kind := SecKind.topRated }
    (by decide) (fun _ p => ⟨{}, rfl⟩)

theorem buildSectionPool_ok (adapter : Sec → Nat → Except Unit PageData)
    (recentFetch : Except Unit RecentData) (avail : Item → Bool)
    (pids : List Nat) (allowed : Option (List String)) (includePaid : Bool)
    (mk : MediaKind) (recentFloor : String) (s : Sec)
    (hok : ∀ s' p, ∃ d, adapter s' p = Except.ok d)
    (hrf : ∃ rd, recentFetch = Except.ok rd) :
    ∃ r, buildSectionPool adapter recentFetch avail pids allowed includePaid
        mk recentFloor s = Except.ok r := by
  by_cases hkind : s.kind = SecKind.recentlyAdded
  · obtain ⟨rd, hrd⟩ := hrf
    simp only [buildSectionPool, if_pos hkind, hrd]
    exact ⟨_, rfl⟩
  · simp only [buildSectionPool, if_neg hkind]
    obtain ⟨st1, h1⟩ := scanLoop_ok _ mk
      (useFastDiscoverFilter (discoverProviderFilterParams pids allowed includePaid) s.kind)
      avail _ _ (fun p => hok _ p) _ {}
    rw [h1]
    simp only []
    obtain ⟨st2, h2⟩ := scanLoop_ok _ mk
      (useFastDiscoverFilter (discoverProviderFilterParams pids allowed includePaid) s.kind)
      avail _ _ (fun p => hok _ p) _ st1
    rw [h2]
    exact ⟨_, rfl⟩

/-- C8 counterexample: a shelf build whose adapter returns one good page and
then raises surfaces the error (losing the accumulated partial pool) instead
of returning the pool built so far — `build_section_pool` has no handler
around `_fetch_section_page`, whose `raise_for_status` propagates. -/
theorem C8_counterexample :
    buildSectionPool
      (fun _ p => if p = 1
        then Except.ok { results := [⟨5, some Media.movie⟩], totalPages := 3 }
        else Except.error ())
      (Except.ok {}) (fun _ => true) [] none false MediaKind.movie ""
      { id := "popular_now", kind := SecKind.discover }
      = Except.error () := by
  rfl

/-- C8 (amended): a page fetch that returns zero items ends the shelf's scan
loop early, returning the pool accumulated so far, and a never-raising
adapter always yields a successful build; but a page fetch that raises is
not caught anywhere in the build — the error propagates out of
`build_section_pool` to the caller instead of producing a partial pool. -/
theorem C8_thm (fetch : Nat → Except Unit PageData) (fb : MediaKind)
    (fast : Bool) (avail : Item → Bool) (target budget fuel : Nat)
    (st : ScanState) (hg1 : st.pool.length < target) (hg2 : st.scanned < budget)
    (hg3 : ¬ (st.totalPages ≠ 0 ∧ st.totalPages < st.page)) :
    (∀ d, fetch st.page = Except.ok d → d.results = [] →
      ∃ st', scanLoop fetch fb fast avail target budget (fuel + 1) st = Except.ok st' ∧
        st'.pool = st.pool) ∧
    (∀ e, fetch st.page = Except.error e →
      scanLoop fetch fb fast avail target budget (fuel + 1) st = Except.error e) ∧
    ∀ (adapter : Sec → Nat → Except Unit PageData)
      (recentFetch : Except Unit RecentData) (avail' : Item → Bool)
      (pids : List Nat) (allowed : Option (List String)) (includePaid : Bool)
      (mk : MediaKind) (recentFloor : String) (s : Sec),
      (∀ s' p, ∃ d, adapter s' p = Except.ok d) →
      (∃ rd, recentFetch = Except.ok rd) →
      ∃ r, buildSectionPool adapter recentFetch avail' pids allowed includePaid
          mk recentFloor s = Except.ok r := by
  refine ⟨?_, ?_, ?_⟩
  · intro d hd hres
    rw [scanLoop, if_pos ⟨hg1, hg2⟩, if_neg hg3, hd]
    simp only []
    rw [if_pos (by simp [hres] : d.results.isEmpty = true)]
    exact ⟨_, rfl, rfl⟩
  · intro e he
    rw [scanLoop, if_pos ⟨hg1, hg2⟩, if_neg hg3, he]
  · intro adapter recentFetch avail' pids allowed includePaid mk recentFloor s hok hrf
    exact buildSectionPool_ok adapter recentFetch avail' pids allowed includePaid
      mk recentFloor s hok hrf

/-- C8 witness: applies the amended theorem at a concrete state and
adapter. -/
theorem C8_thm_witness :
    ∃ st', scanLoop (fun _ => Except.ok {}) MediaKind.movie false (fun _ => true)
        1 1 1 ({} : ScanState) = Except.ok st' ∧ st'.pool = ({} : ScanState).pool :=
  (C8_thm (fun _ => Except.ok {}) MediaKind.movie false (fun _ => true) 1 1 0
    ({} : ScanState) (by decide) (by decide) (by decide)).1 {} rfl rfl

/-- C4: no shelf build ever produces a pool holding two items with the same
(media kind, id) pair — for the personalized home builds
(`build_section_pool`, including the recently-added branch), the guest home
builds (`build_guest_section_pool`), and the accumulation loop of the
single-shelf `/api/section` endpoint (which dedups by bare id, hence a
fortiori by (media kind, id)). -/
theorem C4_thm :
    (∀ (adapter : Sec → Nat → Except Unit PageData)
       (recentFetch : Except Unit RecentData) (avail : Item → Bool)
       (pids : List Nat) (allowed : Option (List String)) (includePaid : Bool)
       (mk : MediaKind) (recentFloor : String) (s : Sec) (r : BuildOut),
        buildSectionPool adapter recentFetch avail pids allowed includePaid
          mk recentFloor s = Except.ok r →
        (itemKeys mk r.pool).Nodup) ∧
    (∀ (fetch : Nat → Except Unit PageData) (mk : MediaKind) (r : BuildOut),
        buildGuestSectionPool fetch mk = Except.ok r →
        (itemKeys mk r.pool).Nodup) ∧
    (∀ (fetch : Nat → Except Unit PageData) (fast : Bool) (avail : Item → Bool)
       (targetCount maxScan fuel startPage : Nat) (mk : MediaKind)
       (st' : SectionScanState),
        sectionScanLoop fetch fast avail targetCount maxScan fuel
          { page := startPage, lastPage := startPage - 1 } = Except.ok st' →
        (itemKeys mk (st'.results.take targetCount)).Nodup) := by
  refine ⟨?_, ?_, ?_⟩
  · intro adapter recentFetch avail pids allowed includePaid mk recentFloor s r hr
    by_cases hkind : s.kind = SecKind.recentlyAdded
    · simp only [buildSectionPool, if_pos hkind] at hr
      rcases recentFetch with e | rd
      · exact absurd hr (by simp)
      · simp only [] at hr
        obtain rfl := Except.ok.inj hr
        exact (addToPool_inv mk _ _ [] [] (by simp [itemKeys]) (by simp [itemKeys])).2
    · simp only [buildSectionPool, if_neg hkind] at hr
      rcases h1 : scanLoop
          (adapter (sectionForFetch s mk recentFloor
            (discoverProviderFilterParams pids allowed includePaid)))
          mk (useFastDiscoverFilter
            (discoverProviderFilterParams pids allowed includePaid) s.kind)
          avail
          (sectionPoolTarget s.kind
            (useFastDiscoverFilter
              (discoverProviderFilterParams pids allowed includePaid) s.kind))
          (sectionMaxScanPages s.kind
            (useTrendingDiscoverFallback
              (discoverProviderFilterParams pids allowed includePaid) s.kind)
            (useFastDiscoverFilter
              (discoverProviderFilterParams pids allowed includePaid) s.kind))
          (sectionMaxScanPages s.kind
            (useTrendingDiscoverFallback
              (discoverProviderFilterParams pids allowed includePaid) s.kind)
            (useFastDiscoverFilter
              (discoverProviderFilterParams pids allowed includePaid) s.kind))
          {} with e | st1 <;> rw [h1] at hr <;> simp only [] at hr
      · exact absurd hr (by simp)
      · rcases h2 : scanLoop
            (adapter (sectionForFetch s mk recentFloor
              (discoverProviderFilterParams pids allowed includePaid)))
            mk (useFastDiscoverFilter
              (discoverProviderFilterParams pids allowed includePaid) s.kind)
            avail rowLimit
            (sectionExtraMaxScanPages s.kind
              (useTrendingDiscoverFallback
                (discoverProviderFilterParams pids allowed includePaid) s.kind)
              (useFastDiscoverFilter
                (discoverProviderFilterParams pids allowed includePaid) s.kind))
            (sectionExtraMaxScanPages s.kind
              (useTrendingDiscoverFallback
                (discoverProviderFilterParams pids allowed includePaid) s.kind)
              (useFastDiscoverFilter
                (discoverProviderFilterParams pids allowed includePaid) s.kind))
            st1 with e | st2 <;> rw [h2] at hr <;> simp only [] at hr
        · exact absurd hr (by simp)
        · obtain rfl := Except.ok.inj hr
          obtain ⟨hs1, hn1⟩ := scanLoop_inv _ _ _ _ _ _ _ _ _ h1
            (by simp [itemKeys]) (by simp [itemKeys])
          obtain ⟨_, hn2⟩ := scanLoop_inv _ _ _ _ _ _ _ _ _ h2 hs1 hn1
          exact hn2
  · intro fetch mk r hr
    simp only [buildGuestSectionPool] at hr
    rcases h1 : scanLoop fetch mk true (fun _ => true) guestPoolTarget
        guestMaxScanPages guestMaxScanPages {} with e | st <;>
      rw [h1] at hr <;> simp only [] at hr
    · exact absurd hr (by simp)
    · obtain rfl := Except.ok.inj hr
      obtain ⟨_, hn⟩ := scanLoop_inv _ _ _ _ _ _ _ _ _ h1
        (by simp [itemKeys]) (by simp [itemKeys])
      exact hn
  · intro fetch fast avail targetCount maxScan fuel startPage mk st' hst
    obtain ⟨_, hnd⟩ := sectionScanLoop_inv _ _ _ _ _ _ _ _ hst
      (by simp [resultIds]) (by simp [resultIds])
    have hids : (resultIds (st'.results.take targetCount)).Nodup := by
      have : (resultIds (st'.results.take targetCount)).Sublist (resultIds st'.results) :=
        List.Sublist.map _ (List.take_sublist targetCount st'.results)
      exact hnd.sublist this
    exact itemKeys_nodup_of_resultIds_nodup mk _ hids

/-- C4 witness: the three builders applied to concrete adapters whose pages
repeat the same item; each resulting pool is key-nodup. -/
theorem C4_thm_witness :
    buildSectionPool repeatPageAdapter (Except.ok {}) (fun _ => true) [] none false
        MediaKind.movie "" { id := "top_rated", kind := SecKind.topRated }
      = Except.ok { pool := [⟨7, some Media.movie⟩], fetchCount := 60, checked := 60 } ∧
    (itemKeys MediaKind.movie
      (({ pool := [⟨7, some Media.movie⟩], fetchCount := 60, checked := 60 } : BuildOut)).pool).Nodup ∧
    buildGuestSectionPool repeatPageFetch MediaKind.movie
      = Except.ok { pool := [⟨7, some Media.movie⟩], fetchCount := 10 } ∧
    (itemKeys MediaKind.movie
      (({ pool := [⟨7, some Media.movie⟩], fetchCount := 10 } : BuildOut)).pool).Nodup ∧
    sectionScanLoop repeatPageFetch false (fun _ => true) 20 5 5 { page := 1, lastPage := 0 }
      = Except.ok
        { results := [⟨7, some Media.movie⟩], seenIds := [7], totalPages := 0,
          page := 6, lastPage := 5, scanned := 5 } ∧
    (itemKeys MediaKind.movie
      ((({ results := [⟨7, some Media.movie⟩], seenIds := [7], totalPages := 0,
           page := 6, lastPage := 5, scanned := 5 } : SectionScanState)).results.take 20)).Nodup := by
  have h1 : buildSectionPool repeatPageAdapter (Except.ok {}) (fun _ => true) [] none false
      MediaKind.movie "" { id := "top_rated", kind := SecKind.topRated }
      = Except.ok { pool := [⟨7, some Media.movie⟩], fetchCount := 60, checked := 60 } := rfl
  have h2 : buildGuestSectionPool repeatPageFetch MediaKind.movie
      = Except.ok { pool := [⟨7, some Media.movie⟩], fetchCount := 10 } := rfl
  have h3 : sectionScanLoop repeatPageFetch false (fun _ => true) 20 5 5
      { page := 1, lastPage := 0 }
      = Except.ok
        { results := [⟨7, some Media.movie⟩], seenIds := [7], totalPages := 0,
          page := 6, lastPage := 5, scanned := 5 } := rfl
  exact ⟨h1,
    C4_thm.1 repeatPageAdapter (Except.ok {}) (fun _ => true) [] none false
      MediaKind.movie "" { id := "top_rated", kind := SecKind.topRated } _ h1,
    h2,
    C4_thm.2.1 repeatPageFetch MediaKind.movie _ h2,
    h3,
    C4_thm.2.2 repeatPageFetch false (fun _ => true) 20 5 5 1 MediaKind.movie _ h3⟩

theorem discoverProviderFilterParams_lookups (pids : List Nat)
    (allowed : Option (List String)) (includePaid : Bool) :
    ∀ q, discoverProviderFilterParams pids allowed includePaid = some q →
      lookupKV q "watch_region" = some ((allowed.getD []).headD "") ∧
      lookupKV q "with_watch_providers" = some (providerExpr pids) ∧
      lookupKV q "with_watch_monetization_types" = some (monetizationExpr includePaid) := by
  intro q hq
  rcases allowed with _ | cs
  · exact absurd hq (by simp [discoverProviderFilterParams])
  · simp only [discoverProviderFilterParams] at hq
    by_cases hcond : pids.isEmpty ∨ cs.length ≠ 1
    · rw [if_pos hcond] at hq
      exact absurd hq (by simp)
    · rw [if_neg hcond] at hq
      obtain rfl := Option.some.inj hq
      refine ⟨?_, ?_, ?_⟩ <;> simp [lookupKV]

theorem discoverProviderFilterParams_isSome (pids : List Nat)
    (allowed : Option (List String)) (includePaid : Bool) :
    (discoverProviderFilterParams pids allowed includePaid).isSome = true ↔
      pids ≠ [] ∧ ∃ cs, allowed = some cs ∧ cs.length = 1 := by
  rcases allowed with _ | cs
  · simp [discoverProviderFilterParams]
  · simp only [discoverProviderFilterParams]
    by_cases hcond : pids.isEmpty ∨ cs.length ≠ 1
    · rw [if_pos hcond]
      simp only [Option.isSome_none, Bool.false_eq_true, false_iff]
      intro ⟨hne, cs', hcs', hlen⟩
      obtain rfl := Option.some.inj hcs'
      rcases hcond with h | h
      · exact hne (List.isEmpty_iff.mp h)
      · exact h hlen
    · rw [if_neg hcond]
      push_neg at hcond
      simp only [Option.isSome_some, true_iff]
      exact ⟨fun he => (by simp [he] at hcond), cs, rfl, hcond.2⟩

theorem buildSectionPool_checked_zero (adapter : Sec → Nat → Except Unit PageData)
    (recentFetch : Except Unit RecentData) (avail : Item → Bool)
    (pids : List Nat) (allowed : Option (List String)) (includePaid : Bool)
    (mk : MediaKind) (recentFloor : String) (s : Sec)
    (hfast : useFastDiscoverFilter
      (discoverProviderFilterParams pids allowed includePaid) s.kind = true) :
    ∀ r, buildSectionPool adapter recentFetch avail pids allowed includePaid
      mk recentFloor s = Except.ok r → r.checked = 0 := by
  have hkind : s.kind ≠ SecKind.recentlyAdded := by
    intro hcontra
    rw [hcontra] at hfast
    simp [useFastDiscoverFilter, useTrendingDiscoverFallback] at hfast
  intro r hr
  simp only [buildSectionPool, if_neg hkind] at hr
  rw [hfast] at hr
  split at hr
  · exact absurd hr (by simp)
  · rename_i st1 heq1
    split at hr
    · exact absurd hr (by simp)
    · rename_i st2 heq2
      obtain rfl := Except.ok.inj hr
      have e2 := scanLoop_checked _ _ _ _ _ _ _ _ heq2
      have e1 := scanLoop_checked _ _ _ _ _ _ _ _ heq1
      simp only [] at e1 e2 ⊢
      omega

theorem buildSectionPool_slow_avail (adapter : Sec → Nat → Except Unit PageData)
    (recentFetch : Except Unit RecentData) (avail : Item → Bool)
    (pids : List Nat) (allowed : Option (List String)) (includePaid : Bool)
    (mk : MediaKind) (recentFloor : String) (s : Sec)
    (hnone : discoverProviderFilterParams pids allowed includePaid = none)
    (hkind : s.kind ≠ SecKind.recentlyAdded) :
    ∀ r, buildSectionPool adapter recentFetch avail pids allowed includePaid
      mk recentFloor s = Except.ok r → ∀ x ∈ r.pool, avail x = true := by
  intro r hr
  have hf : useFastDiscoverFilter none s.kind = false := by
    simp [useFastDiscoverFilter, useTrendingDiscoverFallback]
  simp only [buildSectionPool, if_neg hkind, hnone, hf] at hr
  split at hr
  · exact absurd hr (by simp)
  · rename_i st1 heq1
    split at hr
    · exact absurd hr (by simp)
    · rename_i st2 heq2
      obtain rfl := Except.ok.inj hr
      have a1 := scanLoop_avail _ _ _ _ _ _ _ _ heq1 (by intro x hx; simp at hx)
      have a2 := scanLoop_avail _ _ _ _ _ _ _ _ heq2 a1
      exact a2

/-- C2: the fast filtering path. (1) Provider-aware discover parameters are
produced exactly when the provider id set is non-empty and the allowed
country set holds exactly one country; (2) they embed the watch region, the
sorted provider id list, and the monetization scope; (3) on the fast path —
top-rated, genre, discover, and trending via the discover fallback — the
build submits zero items to the per-item Availability Resolver and the
upstream discovery query carries those provider-aware parameters; (4)
otherwise no provider-aware parameters exist, the shelf is fetched
unrewritten, and every pooled item passed the per-item availability check. -/
theorem C2_thm (pids : List Nat) (allowed : Option (List String))
    (includePaid : Bool) (mk : MediaKind) (recentFloor : String) (s : Sec)
    (adapter : Sec → Nat → Except Unit PageData)
    (recentFetch : Except Unit RecentData) (avail : Item → Bool) :
    ((discoverProviderFilterParams pids allowed includePaid).isSome = true ↔
      pids ≠ [] ∧ ∃ cs, allowed = some cs ∧ cs.length = 1) ∧
    (∀ q, discoverProviderFilterParams pids allowed includePaid = some q →
      lookupKV q "watch_region" = some ((allowed.getD []).headD "") ∧
      lookupKV q "with_watch_providers" = some (providerExpr pids) ∧
      lookupKV q "with_watch_monetization_types" = some (monetizationExpr includePaid)) ∧
    (useFastDiscoverFilter
        (discoverProviderFilterParams pids allowed includePaid) s.kind = true →
      (∀ r, buildSectionPool adapter recentFetch avail pids allowed includePaid
          mk recentFloor s = Except.ok r → r.checked = 0) ∧
      (∀ q, fetchParams (sectionForFetch s mk recentFloor
          (discoverProviderFilterParams pids allowed includePaid)) = some q →
        lookupKV q "watch_region" = some ((allowed.getD []).headD "") ∧
        lookupKV q "with_watch_providers" = some (providerExpr pids) ∧
        lookupKV q "with_watch_monetization_types" = some (monetizationExpr includePaid))) ∧
    (discoverProviderFilterParams pids allowed includePaid = none →
      sectionForFetch s mk recentFloor none = s ∧
      (s.kind ≠ SecKind.recentlyAdded →
        ∀ r, buildSectionPool adapter recentFetch avail pids allowed includePaid
          mk recentFloor s = Except.ok r → ∀ x ∈ r.pool, avail x = true)) := by
  refine ⟨discoverProviderFilterParams_isSome pids allowed includePaid,
          discoverProviderFilterParams_lookups pids allowed includePaid, ?_, ?_⟩
  · intro hfast
    refine ⟨buildSectionPool_checked_zero adapter recentFetch avail pids allowed
      includePaid mk recentFloor s hfast, ?_⟩
    intro q hq
    have hsome : (discoverProviderFilterParams pids allowed includePaid).isSome = true := by
      have h := hfast
      simp only [useFastDiscoverFilter, Bool.and_eq_true] at h
      exact h.1
    obtain ⟨q0, hq0⟩ := Option.isSome_iff_exists.mp hsome
    obtain ⟨l1, l2, l3⟩ := discoverProviderFilterParams_lookups pids allowed includePaid q0 hq0
    cases hkd : s.kind with
    | recentlyAdded =>
      rw [hkd] at hfast
      simp [useFastDiscoverFilter, useTrendingDiscoverFallback] at hfast
    | trending =>
      have hsf : sectionForFetch s mk recentFloor
          (discoverProviderFilterParams pids allowed includePaid) =
          { id := s.id, title := s.title, kind := SecKind.discover,
            params := trendingDiscoverFallbackParams mk recentFloor q0 } := by
        simp [sectionForFetch, useTrendingDiscoverFallback, hkd, hq0]
      rw [hsf] at hq
      simp only [fetchParams] at hq
      obtain rfl := Option.some.inj hq
      by_cases hmk : mk = MediaKind.tv <;>
        refine ⟨?_, ?_, ?_⟩ <;>
          simp [trendingDiscoverFallbackParams, lookupKV_dictUpdate, lookupKV,
            hmk, l1, l2, l3]
    | topRated =>
      have hsf : sectionForFetch s mk recentFloor
          (discoverProviderFilterParams pids allowed includePaid) =
          { s with params := dictUpdate s.params q0 } := by
        simp [sectionForFetch, useTrendingDiscoverFallback, useFastDiscoverFilter, hkd, hq0]
      rw [hsf] at hq
      simp only [fetchParams, hkd] at hq
      obtain rfl := Option.some.inj hq
      refine ⟨?_, ?_, ?_⟩ <;> simp [lookupKV_dictUpdate, lookupKV, l1, l2, l3]
    | genre =>
      have hsf : sectionForFetch s mk recentFloor
          (discoverProviderFilterParams pids allowed includePaid) =
          { s with params := dictUpdate s.params q0 } := by
        simp [sectionForFetch, useTrendingDiscoverFallback, useFastDiscoverFilter, hkd, hq0]
      rw [hsf] at hq
      simp only [fetchParams, hkd] at hq
      obtain rfl := Option.some.inj hq
      refine ⟨?_, ?_, ?_⟩ <;> simp [lookupKV_dictUpdate, lookupKV, l1, l2, l3]
    | discover =>
      have hsf : sectionForFetch s mk recentFloor
          (discoverProviderFilterParams pids allowed includePaid) =
          { s with params := dictUpdate s.params q0 } := by
        simp [sectionForFetch, useTrendingDiscoverFallback, useFastDiscoverFilter, hkd, hq0]
      rw [hsf] at hq
      simp only [fetchParams, hkd] at hq
      obtain rfl := Option.some.inj hq
      refine ⟨?_, ?_, ?_⟩ <;> simp [lookupKV_dictUpdate, lookupKV, l1, l2, l3]
  · intro hnone
    refine ⟨?_, fun hkind => buildSectionPool_slow_avail adapter recentFetch avail
      pids allowed includePaid mk recentFloor s hnone hkind⟩
    simp [sectionForFetch, useTrendingDiscoverFallback, useFastDiscoverFilter]

/-- C2 witness: the spec's fast-path scoping test — providerIds {8,9},
countries {"US"}, movie, target shelf top-rated: the provider-aware query is
produced, carries "8|9" and "US", and a concrete fast-path build checks zero
items against the Availability Resolver; with no provider ids the
provider-aware params are absent and the shelf is fetched unrewritten. -/
theorem C2_thm_witness :
    (discoverProviderFilterParams [8, 9] (some ["US"]) false).isSome = true ∧
    (∀ q, discoverProviderFilterParams [8, 9] (some ["US"]) false = some q →
      lookupKV q "watch_region" = some (((some ["US"]).getD []).headD "") ∧
      lookupKV q "with_watch_providers" = some (providerExpr [8, 9]) ∧
      lookupKV q "with_watch_monetization_types" = some (monetizationExpr false)) ∧
    buildSectionPool (fun _ _ => Except.ok {}) (Except.ok {}) (fun _ => true)
        [8, 9] (some ["US"]) false MediaKind.movie ""
        { id := "top_rated", kind := SecKind.topRated }
      = Except.ok { pool := [], fetchCount := 2, checked := 0 } ∧
    (({ pool := [], fetchCount := 2, checked := 0 } : BuildOut)).checked = 0 ∧
    discoverProviderFilterParams [] none false = none ∧
    sectionForFetch { id := "top_rated", kind := SecKind.topRated } MediaKind.movie "" none
      = { id := "top_rated", kind := SecKind.topRated } := by
  have hrun : buildSectionPool (fun _ _ => Except.ok {}) (Except.ok {}) (fun _ => true)
      [8, 9] (some ["US"]) false MediaKind.movie ""
      { id := "top_rated", kind := SecKind.topRated }
      = Except.ok { pool := [], fetchCount := 2, checked := 0 } := by rfl
  refine ⟨?_, ?_, hrun, ?_, rfl, ?_⟩
  · exact (C2_thm [8, 9] (some ["US"]) false MediaKind.movie ""
      { id := "top_rated", kind := SecKind.topRated } (fun _ _ => Except.ok {})
      (Except.ok {}) (fun _ => true)).1.mpr (by refine ⟨by decide, ["US"], rfl, by decide⟩)
  · exact (C2_thm [8, 9] (some ["US"]) false MediaKind.movie ""
      { id := "top_rated", kind := SecKind.topRated } (fun _ _ => Except.ok {})
      (Except.ok {}) (fun _ => true)).2.1
  · exact ((C2_thm [8, 9] (some ["US"]) false MediaKind.movie ""
      { id := "top_rated", kind := SecKind.topRated } (fun _ _ => Except.ok {})
      (Except.ok {}) (fun _ => true)).2.2.1 (by decide)).1 _ hrun
  · exact ((C2_thm [] none false MediaKind.movie ""
      { id := "top_rated", kind := SecKind.topRated } (fun _ _ => Except.ok {})
      (Except.ok {}) (fun _ => true)).2.2.2 rfl).1

theorem providerEntryHit (p : ProviderEntry) (pids : List Nat) :
    (match p.provider_id with
      | some pid => pids.contains pid
      | none => false) = true ↔
    ∃ pid, p.provider_id = some pid ∧ pid ∈ pids := by
  cases hp : p.provider_id <;> simp [hp]

/-- C5: on a cache miss with a successful provider-map fetch, the
availability check returns true iff some region not excluded by the allowed
country set (no region is excluded in VPN/any-country mode) lists one of the
selected provider ids under flatrate/free/ads — extended with rent/buy
exactly when paid inclusion is requested — and the boolean is cached under
the (media kind, item id, country-scope-plus-monetization signature) key. -/
theorem C5_thm (providers : ProviderMap) (providerIds : List Nat)
    (includePaid : Bool) (allowed : Option (List String)) (flagCache : FlagCache)
    (mediaType : String) (itemId : Nat)
    (hmiss : lookupKV flagCache (mediaType, itemId, countryScopeKey allowed includePaid)
      = none) :
    itemHasProviderCached (Except.ok providers) providerIds includePaid allowed
        flagCache mediaType itemId (countryScopeKey allowed includePaid) =
      (itemHasProviderEval providers providerIds includePaid allowed,
       ((mediaType, itemId, countryScopeKey allowed includePaid),
        itemHasProviderEval providers providerIds includePaid allowed) :: flagCache) ∧
    (itemHasProviderEval providers providerIds includePaid allowed = true ↔
      ∃ rcRegion ∈ providers, regionSkipped allowed rcRegion.1 = false ∧
        ∃ k ∈ monetizationKeys includePaid,
          ∃ p ∈ (lookupKV rcRegion.2 k).getD [],
            ∃ pid, p.provider_id = some pid ∧ pid ∈ providerIds) ∧
    monetizationKeys includePaid =
      (if includePaid then ["flatrate", "free", "ads", "rent", "buy"]
       else ["flatrate", "free", "ads"]) ∧
    (∀ regionCode, regionSkipped none regionCode = false) := by
  refine ⟨?_, ?_, rfl, fun _ => rfl⟩
  · simp only [itemHasProviderCached, hmiss]
  · simp only [itemHasProviderEval, List.any_eq_true, Bool.and_eq_true,
      Bool.not_eq_true']
    constructor
    · rintro ⟨rc, hrc, hskip, k, hk, p, hp, hhit⟩
      exact ⟨rc, hrc, hskip, k, hk, p, hp, (providerEntryHit p providerIds).mp hhit⟩
    · rintro ⟨rc, hrc, hskip, k, hk, p, hp, hhit⟩
      exact ⟨rc, hrc, hskip, k, hk, p, hp, (providerEntryHit p providerIds).mpr hhit⟩

/-- C5 witness: a concrete miss-then-evaluate run — provider 8 streams in
region "US" under flatrate, so the check returns true and caches true under
the scope key `"US:stream"`. -/
theorem C5_thm_witness :
    itemHasProviderCached
        (Except.ok [("US", [("flatrate", [⟨some 8⟩])])]) [8, 9] false
        (some ["US"]) [] "movie" 603 (countryScopeKey (some ["US"]) false) =
      (true, (("movie", 603, countryScopeKey (some ["US"]) false), true) :: []) ∧
    countryScopeKey (some ["US"]) false = "US:stream" :=
  ⟨(C5_thm [("US", [("flatrate", [⟨some 8⟩])])] [8, 9] false (some ["US"]) []
      "movie" 603 (by decide)).1.trans (by decide),
   by decide⟩

/-- C6: if the provider-map lookup raises, the availability check caches
`false` under the item's key and returns `false` instead of propagating the
exception. -/
theorem C6_thm (providerIds : List Nat) (includePaid : Bool)
    (allowed : Option (List String)) (flagCache : FlagCache)
    (mediaType : String) (itemId : Nat) (scopeKey : String)
    (hmiss : lookupKV flagCache (mediaType, itemId, scopeKey) = none) :
    itemHasProviderCached (Except.error ()) providerIds includePaid allowed
        flagCache mediaType itemId scopeKey =
      (false, ((mediaType, itemId, scopeKey), false) :: flagCache) := by
  simp only [itemHasProviderCached, hmiss]

/-- C6 witness: a concrete failing fetch caches and returns false. -/
theorem C6_thm_witness :
    itemHasProviderCached (Except.error ()) [8] false (some ["US"]) []
        "movie" 603 "US:stream" =
      (false, (("movie", 603, "US:stream"), false) :: []) :=
  C6_thm [8] false (some ["US"]) [] "movie" 603 "US:stream" (by decide)

theorem cacheLookupFresh_stale {κ ν : Type} [DecidableEq κ]
    (store : List (κ × Nat × ν)) (key : κ) (ttl now t : Nat) (v : ν)
    (hfound : lookupKV store key = some (t, v)) (hstale : ttl ≤ now - t) :
    cacheLookupFresh store key ttl now = none := by
  simp only [cacheLookupFresh, hfound]
  rw [if_neg (by omega)]

/-- C7: no cache domain — watch-provider map, composite home response,
section response, shelf catalog config, changes feed — serves an entry whose
age has reached its domain TTL as fresh; and for a fixed (media kind, item
id), two `_get_watch_providers_cached` calls within the watch-provider TTL
window make exactly one upstream provider lookup, with exactly one
additional lookup once the TTL has elapsed. -/
theorem C7_thm :
    (∀ (ν : Type) (store : List ((String × Nat) × Nat × ν)) key now t (v : ν),
      lookupKV store key = some (t, v) → WATCH_PROVIDER_TTL ≤ now - t →
      watchProviderCacheGet store key now = none) ∧
    (∀ (ν : Type) (store : List (String × Nat × ν)) key now t (v : ν),
      lookupKV store key = some (t, v) → HOME_CACHE_TTL ≤ now - t →
      homeCacheGet store key now = none) ∧
    (∀ (ν : Type) (store : List (String × Nat × ν)) key now t (v : ν),
      lookupKV store key = some (t, v) → SECTION_CACHE_TTL ≤ now - t →
      sectionCacheGet store key now = none) ∧
    (∀ (ν : Type) (store : List (String × Nat × ν)) key now t (v : ν),
      lookupKV store key = some (t, v) → SECTION_CONFIG_TTL ≤ now - t →
      sectionConfigCacheGet store key now = none) ∧
    (∀ (ν : Type) (store : List (String × Nat × ν)) key now t (v : ν),
      lookupKV store key = some (t, v) → CHANGES_TTL ≤ now - t →
      changesCacheGet store key now = none) ∧
    (∀ (upstreamMovie upstreamTv : ProviderMap) (itemId : Nat) (mediaType : String)
       (t0 t1 t2 : Nat), t0 ≤ t1 → t1 - t0 < WATCH_PROVIDER_TTL →
      WATCH_PROVIDER_TTL ≤ t2 - t0 →
      (getWatchProvidersCached upstreamMovie upstreamTv itemId mediaType t0 []).2.2 = 1 ∧
      (getWatchProvidersCached upstreamMovie upstreamTv itemId mediaType t1
        (getWatchProvidersCached upstreamMovie upstreamTv itemId mediaType t0 []).2.1).2.2
        = 0 ∧
      (getWatchProvidersCached upstreamMovie upstreamTv itemId mediaType t2
        (getWatchProvidersCached upstreamMovie upstreamTv itemId mediaType t1
          (getWatchProvidersCached upstreamMovie upstreamTv itemId mediaType t0 []).2.1).2.1).2.2
        = 1) := by
  refine ⟨fun ν store key now t v hf hs => cacheLookupFresh_stale store key _ now t v hf hs,
          fun ν store key now t v hf hs => cacheLookupFresh_stale store key _ now t v hf hs,
          fun ν store key now t v hf hs => cacheLookupFresh_stale store key _ now t v hf hs,
          fun ν store key now t v hf hs => cacheLookupFresh_stale store key _ now t v hf hs,
          fun ν store key now t v hf hs => cacheLookupFresh_stale store key _ now t v hf hs,
          ?_⟩
  intro upstreamMovie upstreamTv itemId mediaType t0 t1 t2 h01 hfresh hstale
  have hc0 : getWatchProvidersCached upstreamMovie upstreamTv itemId mediaType t0 [] =
      ((if mediaType = "tv" then upstreamTv else upstreamMovie),
       (((mediaType, itemId), t0,
         (if mediaType = "tv" then upstreamTv else upstreamMovie)) : _) :: [], 1) := by
    simp [getWatchProvidersCached, watchProviderCacheGet, cacheLookupFresh, lookupKV]
  have hlook : lookupKV
      [(((mediaType, itemId) : String × Nat), t0,
        (if mediaType = "tv" then upstreamTv else upstreamMovie))]
      (mediaType, itemId) =
      some (t0, (if mediaType = "tv" then upstreamTv else upstreamMovie)) := by
    simp [lookupKV]
  have hc1 : getWatchProvidersCached upstreamMovie upstreamTv itemId mediaType t1
      [(((mediaType, itemId) : String × Nat), t0,
        (if mediaType = "tv" then upstreamTv else upstreamMovie))] =
      ((if mediaType = "tv" then upstreamTv else upstreamMovie),
       [(((mediaType, itemId) : String × Nat), t0,
         (if mediaType = "tv" then upstreamTv else upstreamMovie))], 0) := by
    simp only [getWatchProvidersCached, watchProviderCacheGet, cacheLookupFresh, hlook]
    rw [if_pos (by omega)]
  have hc2 : getWatchProvidersCached upstreamMovie upstreamTv itemId mediaType t2
      [(((mediaType, itemId) : String × Nat), t0,
        (if mediaType = "tv" then upstreamTv else upstreamMovie))] =
      ((if mediaType = "tv" then upstreamTv else upstreamMovie),
       (((mediaType, itemId) : String × Nat), t2,
         (if mediaType = "tv" then upstreamTv else upstreamMovie)) ::
       [(((mediaType, itemId) : String × Nat), t0,
         (if mediaType = "tv" then upstreamTv else upstreamMovie))], 1) := by
    simp only [getWatchProvidersCached, watchProviderCacheGet, cacheLookupFresh, hlook]
    rw [if_neg (by omega)]
  rw [hc0]
  simp only []
  rw [hc1]
  simp only []
  rw [hc2]
  simp

/-- C7 witness: concrete times around the six-hour watch-provider TTL. -/
theorem C7_thm_witness :
    (getWatchProvidersCached [] [] 603 "movie" 0 []).2.2 = 1 ∧
    (getWatchProvidersCached [] [] 603 "movie" 100
      (getWatchProvidersCached [] [] 603 "movie" 0 []).2.1).2.2 = 0 ∧
    (getWatchProvidersCached [] [] 603 "movie" 21600
      (getWatchProvidersCached [] [] 603 "movie" 100
        (getWatchProvidersCached [] [] 603 "movie" 0 []).2.1).2.1).2.2 = 1 :=
  C7_thm.2.2.2.2.2 [] [] 603 "movie" 0 100 21600 (by decide) (by decide) (by decide)

/-- C10: the feed page number is clamped to at least 1 and the shelf-window
page size into [3, 10] before the shelf list is sliced (so a window never
exceeds 10 shelves), in-range requests are passed through unchanged; and the
single-shelf / recently-added fetch-round count is clamped into [1, 5],
bounding the per-call accumulation target and scan budget. -/
theorem C10_thm (p s n : Int) (cfg : List Sec) :
    1 ≤ clampPage p ∧ 3 ≤ clampPageSize s ∧ clampPageSize s ≤ 10 ∧
    1 ≤ clampFetchRounds n ∧ clampFetchRounds n ≤ 5 ∧
    (1 ≤ p → clampPage p = p) ∧
    (3 ≤ s → s ≤ 10 → clampPageSize s = s) ∧
    (1 ≤ n → n ≤ 5 → clampFetchRounds n = n) ∧
    (homeSliceWindow cfg p s).length ≤ 10 ∧
    sectionTargetCount n ≤ 100 ∧ sectionMaxScanForPages n ≤ 25 := by
  have h1 : 1 ≤ clampPage p := le_max_left 1 p
  have h2 : 3 ≤ clampPageSize s := le_max_left 3 (min 10 s)
  have h3 : clampPageSize s ≤ 10 := by
    unfold clampPageSize
    omega
  have h4 : 1 ≤ clampFetchRounds n := le_max_left 1 (min 5 n)
  have h5 : clampFetchRounds n ≤ 5 := by
    unfold clampFetchRounds
    omega
  refine ⟨h1, h2, h3, h4, h5, ?_, ?_, ?_, ?_, ?_, ?_⟩
  · intro hp; unfold clampPage; omega
  · intro hs1 hs2; unfold clampPageSize; omega
  · intro hn1 hn2; unfold clampFetchRounds; omega
  · have hlen : (homeSliceWindow cfg p s).length ≤ (clampPageSize s).toNat := by
      unfold homeSliceWindow
      rw [List.length_take]
      omega
    omega
  · unfold sectionTargetCount; omega
  · unfold sectionMaxScanForPages; omega

/-- C10 witness: concrete out-of-range and in-range requests. -/
theorem C10_thm_witness :
    1 ≤ clampPage (-4) ∧ 3 ≤ clampPageSize 99 ∧ clampPageSize 99 ≤ 10 ∧
    1 ≤ clampFetchRounds 0 ∧ clampFetchRounds 0 ≤ 5 ∧
    clampPage 2 = 2 ∧ clampPageSize 6 = 6 ∧ clampFetchRounds 3 = 3 ∧
    (homeSliceWindow [] (-4) 99).length ≤ 10 ∧
    sectionTargetCount 0 ≤ 100 ∧ sectionMaxScanForPages 0 ≤ 25 := by
  obtain ⟨a1, a2, a3, a4, a5, _, _, _, a9, a10, a11⟩ := C10_thm (-4) 99 0 []
  obtain ⟨_, _, _, _, _, b6, _, _, _, _, _⟩ := C10_thm 2 99 0 []
  obtain ⟨_, _, _, _, _, _, b7, _, _, _, _⟩ := C10_thm 2 6 0 []
  obtain ⟨_, _, _, _, _, _, _, b8, _, _, _⟩ := C10_thm 2 6 3 []
  exact ⟨a1, a2, a3, a4, a5, b6 (by decide), b7 (by decide) (by decide),
    b8 (by decide) (by decide), a9, a10, a11⟩

theorem mem_secIds_addDiscover (x : String) (base : Params) (s : List Sec)
    (sid title : String) (p : Params) :
    x ∈ secIds (addDiscover base s sid title p) ↔ x ∈ secIds s ∨ x = sid := by
  unfold addDiscover
  by_cases h : sid ∈ secIds s
  · simp only [if_pos h]
    constructor
    · exact Or.inl
    · rintro (hx | rfl)
      · exact hx
      · exact h
  · simp only [if_neg h]
    simp [secIds]

theorem mem_secIds_addGenreDiscover (x : String) (base : Params)
    (gid : String → Option Nat) (s : List Sec) (sid title : String)
    (names : List String) (op : String) (extra : Params) :
    x ∈ secIds (addGenreDiscover base gid s sid title names op extra) ↔
      x ∈ secIds s ∨ (x = sid ∧ (genreExpression names gid op).isSome) := by
  unfold addGenreDiscover
  cases hg : genreExpression names gid op
  · simp [hg]
  · simp [hg, mem_secIds_addDiscover]

theorem mem_secIds_genreFold (x : String) (params0 : Params) :
    ∀ (l : List Genre) (s : List Sec),
      x ∈ secIds (l.foldl (genreSectionStep params0) s) ↔
        x ∈ secIds s ∨ ∃ g ∈ l, x = "genre_" ++ toString g.id := by
  intro l
  induction l with
  | nil => intro s; simp
  | cons g rest ih =>
    intro s
    simp only [List.foldl_cons]
    rw [ih]
    have hstep : x ∈ secIds (genreSectionStep params0 s g) ↔
        x ∈ secIds s ∨ x = "genre_" ++ toString g.id := by
      unfold genreSectionStep
      by_cases h : ("genre_" ++ toString g.id) ∈ secIds s
      · simp only [if_pos h]
        constructor
        · exact Or.inl
        · rintro (hx | rfl)
          · exact hx
          · exact h
      · simp only [if_neg h]
        simp [secIds]
    rw [hstep]
    constructor
    · rintro ((hx | rfl) | ⟨g', hg', rfl⟩)
      · exact Or.inl hx
      · exact Or.inr ⟨g, List.mem_cons_self g rest, rfl⟩
      · exact Or.inr ⟨g', List.mem_cons_of_mem g hg', rfl⟩
    · rintro (hx | ⟨g', hg', rfl⟩)
      · exact Or.inl (Or.inl hx)
      · rcases List.mem_cons.mp hg' with rfl | hmem
        · exact Or.inl (Or.inr rfl)
        · exact Or.inr ⟨g', hmem, rfl⟩

theorem mem_secIds_appendGenreSections (x : String) (params0 : Params)
    (s : List Sec) (genres : List Genre) :
    x ∈ secIds (appendGenreSections params0 s genres) ↔
      x ∈ secIds s ∨ ∃ g ∈ orderedGenres genres, x = "genre_" ++ toString g.id :=
  mem_secIds_genreFold x params0 (orderedGenres genres) s

theorem genreIdNeRecently (s : String) : ("genre_" ++ s) ≠ "recently_added" := by
  intro h
  have hd := congrArg String.data h
  rw [String.data_append] at hd
  simp at hd

theorem genreIdNeQuick (s : String) : ("genre_" ++ s) ≠ "quick_watches" := by
  intro h
  have hd := congrArg String.data h
  rw [String.data_append] at hd
  simp at hd

theorem secIds_nil : secIds [] = [] := rfl

theorem secIds_cons (a : Sec) (l : List Sec) : secIds (a :: l) = a.id :: secIds l := rfl

theorem secIds_append (l1 l2 : List Sec) : secIds (l1 ++ l2) = secIds l1 ++ secIds l2 := by
  simp [secIds]

theorem recentlyNeDecadeId (s t : String) :
    ¬ ("recently_added" = ("decade_" ++ s) ++ t) := by
  intro h
  have hd := congrArg String.data h
  rw [String.data_append, String.data_append] at hd
  simp at hd

theorem quickNeDecadeId (s t : String) :
    ¬ ("quick_watches" = ("decade_" ++ s) ++ t) := by
  intro h
  have hd := congrArg String.data h
  rw [String.data_append, String.data_append] at hd
  simp at hd

theorem guestConfig_no_recently (mk : MediaKind) (country : String)
    (genres : List Genre) (gid : String → Option Nat) (d : DatesCtx) :
    "recently_added" ∉ secIds (guestSectionConfigSections mk country genres gid d) := by
  intro hmem
  simp only [guestSectionConfigSections, mem_secIds_appendGenreSections] at hmem
  rcases hmem with hmem | ⟨g, _, hg⟩
  · rcases mk <;>
      simp [explorationSections, secIds_append, secIds_cons, secIds_nil,
        mem_secIds_addDiscover, mem_secIds_addGenreDiscover, decadesList,
        LANGUAGE_SPOTLIGHTS, recentlyNeDecadeId] at hmem
  · exact genreIdNeRecently (toString g.id) hg.symm

theorem guestConfig_quick_iff (mk : MediaKind) (country : String)
    (genres : List Genre) (gid : String → Option Nat) (d : DatesCtx) :
    "quick_watches" ∈ secIds (guestSectionConfigSections mk country genres gid d) ↔
      mk = MediaKind.movie := by
  have hgenre : ∀ g : Genre, ¬ ("quick_watches" = "genre_" ++ toString g.id) :=
    fun g h => genreIdNeQuick (toString g.id) h.symm
  simp only [guestSectionConfigSections, mem_secIds_appendGenreSections]
  rcases mk <;>
    simp [explorationSections, secIds_append, secIds_cons, secIds_nil,
      mem_secIds_addDiscover, mem_secIds_addGenreDiscover, decadesList,
      LANGUAGE_SPOTLIGHTS, quickNeDecadeId, hgenre]

theorem homeConfig_has_recently (mk : MediaKind) (providerIds : List Nat)
    (catalogs : List String) (countries : List String) (genres : List Genre)
    (gid : String → Option Nat) (d : DatesCtx) :
    "recently_added" ∈ secIds
      (homeSectionConfigSections mk providerIds catalogs countries genres gid d) := by
  simp only [homeSectionConfigSections, mem_secIds_appendGenreSections]
  left
  simp [secIds_append, secIds_cons, secIds_nil]

/-- C9 counterexample: the guest shelf catalog for media kind "movie" and
country "DE" does contain the runtime-based shelves (here `quick_watches`) —
they are not omitted from the guest variant. -/
theorem C9_counterexample :
    "quick_watches" ∈ secIds
      (guestSectionConfigSections MediaKind.movie "DE" [] (fun _ => none) {}) := by
  decide

/-- C9 (amended): a feed request resolving no provider ids but a country is
routed to the guest path keyed by that country (never the personalized
filtering path); the guest shelf catalog omits the provider-scoped
recently-added shelf (which the personalized catalog always carries), but it
does include the runtime-based movie shelves exactly when the requested
media kind is movie — the same rule as the personalized catalog, not an
omission of the guest variant. -/
theorem C9_thm (mk : MediaKind) (country : String) (genres : List Genre)
    (gid : String → Option Nat) (d : DatesCtx) (ids providerIds : List Nat)
    (countryParam : Option String) (userCountries : List String)
    (catalogs : List String) (countries : List String) :
    (ids = [] → ∀ c, normalizeCountryCode countryParam = some c →
      homeRoute ids false countryParam userCountries = HomePath.guest c) ∧
    "recently_added" ∉ secIds (guestSectionConfigSections mk country genres gid d) ∧
    "recently_added" ∈ secIds
      (homeSectionConfigSections mk providerIds catalogs countries genres gid d) ∧
    ("quick_watches" ∈ secIds (guestSectionConfigSections mk country genres gid d) ↔
      mk = MediaKind.movie) := by
  refine ⟨?_, guestConfig_no_recently mk country genres gid d,
    homeConfig_has_recently mk providerIds catalogs countries genres gid d,
    guestConfig_quick_iff mk country genres gid d⟩
  intro hids c hc
  subst hids
  simp [homeRoute, hc]

/-- C9 witness: the spec's guest-fallback scenario — no provider ids, the
country parameter resolves to "DE". -/
theorem C9_thm_witness :
    homeRoute [] false (some "de") [] = HomePath.guest "DE" ∧
    "recently_added" ∉ secIds
      (guestSectionConfigSections MediaKind.mix "DE" [] (fun _ => none) {}) ∧
    "recently_added" ∈ secIds
      (homeSectionConfigSections MediaKind.mix [8] ["netflix.subscription"] ["DE"]
        [] (fun _ => none) {}) ∧
    ("quick_watches" ∈ secIds
        (guestSectionConfigSections MediaKind.mix "DE" [] (fun _ => none) {}) ↔
      MediaKind.mix = MediaKind.movie) :=
  ⟨(C9_thm MediaKind.mix "DE" [] (fun _ => none) {} [] [8] (some "de") []
      ["netflix.subscription"] ["DE"]).1 rfl "DE" (by decide),
   (C9_thm MediaKind.mix "DE" [] (fun _ => none) {} [] [8] (some "de") []
      ["netflix.subscription"] ["DE"]).2.1,
   (C9_thm MediaKind.mix "DE" [] (fun _ => none) {} [] [8] (some "de") []
      ["netflix.subscription"] ["DE"]).2.2.1,
   (C9_thm MediaKind.mix "DE" [] (fun _ => none) {} [] [8] (some "de") []
      ["netflix.subscription"] ["DE"]).2.2.2⟩
